import Mathlib

/-!
Shallow embedding of the core of the `stc_api` backend, covering

* the outbox dispatch engine (`app/services/outbox.py`): `enqueue_outbox`,
  the atomic claim step inside `process_outbox_batch`, and the drain loop;
* the identity store (`app/routers/surveys.py::_get_or_create_user_by_qr`,
  `app/routers/users.py::register_user`);
* the submission guards (`app/routers/quiz.py::submit_quiz`,
  `app/routers/surveys.py::submit_survey`).

Modelling conventions:

* MongoDB collections are Lean lists of structures; a collection's `_id` is
  a `Nat` drawn from a counter (`nextId`).
* `find_one(filter)` is `List.find?` (Mongo returns documents in some store
  order; the embedding fixes list order, which the spec treats as a
  don't-care).
* `find_one_and_update({"status": PENDING}, $set …, $inc …, AFTER)` is a
  single function from state to state: the select and the update are one
  indivisible step, exactly as the storage primitive guarantees.
* `update_one({"_id": id}, $set …)` updates the first list entry with that
  id; `update_one({"qrId": qr}, …)` the first entry with that `qrId`.
* A Python exception is modelled by its `repr` string: a handler is a
  function into `Except String Unit`, and the string carried by `.error`
  stands for `repr(e)`.
* `datetime` values are `Nat` seconds since the epoch; midnight UTC of the
  day containing `t` is `t - t % 86400` (models `_today_utc_midnight`).
* The unique indexes created in `app/dependencies/db.py::_ensure_indexes`
  (`users.qrId`, `users.sysId`, `users.phoneE164`) make `insert_one` and
  `update_one` fallible with a `DuplicateKeyError`; the embedding checks
  the corresponding membership conditions explicitly.
-/

deriving instance DecidableEq for Except

namespace STC

/-! ## Outbox data model (`app/services/outbox.py`) -/

/-- Status constants `STATUS_PENDING` … `STATUS_FAILED`. -/
inductive OStatus where
  | PENDING
  | PROCESSING
  | DONE
  | FAILED
deriving DecidableEq, Repr

/-- One document of the `outbox` collection.  `lastUpdatedAt`/`createdAt`
are not tracked: no claim mentions them. -/
structure OutboxEvent where
  id : Nat
  topic : String
  payload : String
  status : OStatus
  attempts : Nat
  error : Option String
deriving DecidableEq, Repr

/-- One document of the append-only `outbox_log` collection. -/
structure OutboxLogEntry where
  outboxId : Nat
  topic : String
  status : OStatus
  error : Option String
deriving DecidableEq, Repr

/-- The persistent state seen by the outbox helpers. -/
structure OutboxDB where
  outbox : List OutboxEvent
  log : List OutboxLogEntry
  nextId : Nat
deriving DecidableEq, Repr

/-- Counts returned by `process_outbox_batch` (`{"done": …, "failed": …}`). -/
structure Counts where
  done : Nat
  failed : Nat
deriving DecidableEq, Repr

/-- A handler passed to `process_outbox_batch`; `.error s` models the
handler raising an exception whose `repr` is `s`. -/
def Handler : Type := OutboxEvent → Except String Unit

/-- `enqueue_outbox(db, topic, payload)`: insert a PENDING event with
`attempts = 0`, return its id. -/
def enqueue_outbox (db : OutboxDB) (topic payload : String) : OutboxDB × Nat :=
  (⟨db.outbox ++ [⟨db.nextId, topic, payload, .PENDING, 0, none⟩], db.log, db.nextId + 1⟩,
    db.nextId)

/-- The atomic claim inside `process_outbox_batch`:
`find_one_and_update({"status": PENDING}, {$set: {status: PROCESSING}, $inc: {attempts: 1}}, AFTER)`.
Returns the post-image and the updated collection, or `none`. -/
def claimPending : List OutboxEvent → Option (OutboxEvent × List OutboxEvent)
  | [] => none
  | e :: rest =>
    if e.status = .PENDING then
      let e' : OutboxEvent :=
        { e with status := .PROCESSING, attempts := e.attempts + 1 }
      some (e', e' :: rest)
    else
      match claimPending rest with
      | none => none
      | some (c, rest') => some (c, e :: rest')

/-- The claim step lifted to the whole state. -/
def claimNext (db : OutboxDB) : Option (OutboxEvent × OutboxDB) :=
  match claimPending db.outbox with
  | none => none
  | some (e, l) => some (e, { db with outbox := l })

/-- `update_one({"_id": id}, …)`: rewrite the first event with this id. -/
def updateById (id : Nat) (f : OutboxEvent → OutboxEvent) :
    List OutboxEvent → List OutboxEvent
  | [] => []
  | e :: rest =>
    if e.id = id then f e :: rest else e :: updateById id f rest

/-- The success branch of the dispatch loop: set status DONE (the `error`
field is left untouched). -/
def markDone (l : List OutboxEvent) (id : Nat) : List OutboxEvent :=
  updateById id (fun e => { e with status := .DONE }) l

/-- The failure branch: set status FAILED and `error := repr(e)`. -/
def markFailed (l : List OutboxEvent) (id : Nat) (err : String) : List OutboxEvent :=
  updateById id (fun e => { e with status := .FAILED, error := some err }) l

/-- The `try/except` body of `process_outbox_batch` for one claimed event:
run the handler, mark DONE or FAILED, append the matching log entry, and
report the `(done, failed)` increment.  Structurally total: a handler
failure is data, never a propagated exception. -/
def handleClaimed (db : OutboxDB) (handler : Handler) (evt : OutboxEvent) :
    OutboxDB × Nat × Nat :=
  match handler evt with
  | .ok _ =>
    ({ db with
        outbox := markDone db.outbox evt.id,
        log := db.log ++ [⟨evt.id, evt.topic, .DONE, none⟩] }, 1, 0)
  | .error e =>
    ({ db with
        outbox := markFailed db.outbox evt.id e,
        log := db.log ++ [⟨evt.id, evt.topic, .FAILED, some e⟩] }, 0, 1)

/-- The `for _ in range(limit)` loop of `process_outbox_batch`. -/
def processLoop (handler : Handler) : Nat → OutboxDB → OutboxDB × Counts
  | 0, db => (db, ⟨0, 0⟩)
  | limit + 1, db =>
    match claimNext db with
    | none => (db, ⟨0, 0⟩)
    | some (evt, db1) =>
      let step := handleClaimed db1 handler evt
      let rest := processLoop handler limit step.1
      (rest.1, ⟨step.2.1 + rest.2.done, step.2.2 + rest.2.failed⟩)

/-- `process_outbox_batch(db, handler, limit)`. -/
def process_outbox_batch (db : OutboxDB) (handler : Handler) (limit : Nat) :
    OutboxDB × Counts :=
  processLoop handler limit db

/-! ### Outbox observation helpers -/

/-- Status of the (first) event with this id. -/
def statusOf (l : List OutboxEvent) (id : Nat) : Option OStatus :=
  (l.find? (fun e => e.id == id)).map (·.status)

/-- `error` field of the (first) event with this id. -/
def errorOf (l : List OutboxEvent) (id : Nat) : Option (Option String) :=
  (l.find? (fun e => e.id == id)).map (·.error)

/-- `attempts` of the (first) event with this id. -/
def attemptsOf (l : List OutboxEvent) (id : Nat) : Option Nat :=
  (l.find? (fun e => e.id == id)).map (·.attempts)

/-- `topic` of the (first) event with this id. -/
def topicOf (l : List OutboxEvent) (id : Nat) : Option String :=
  (l.find? (fun e => e.id == id)).map (·.topic)

/-- Number of PENDING events. -/
def countPending (l : List OutboxEvent) : Nat :=
  l.countP (fun e => e.status == .PENDING)

/-- Number of DONE events. -/
def countDone (l : List OutboxEvent) : Nat :=
  l.countP (fun e => e.status == .DONE)

/-- Mongo guarantees `_id` uniqueness inside a collection. -/
def nodupIds (l : List OutboxEvent) : Prop :=
  (l.map (·.id)).Nodup

instance (l : List OutboxEvent) : Decidable (nodupIds l) := by
  unfold nodupIds; infer_instance

/-! ### Lemmas about the atomic claim step -/

theorem claimPending_shape {l : List OutboxEvent} {e : OutboxEvent} {l' : List OutboxEvent}
    (h : claimPending l = some (e, l')) :
    ∃ l₁ e₀ l₂, l = l₁ ++ e₀ :: l₂ ∧
      (∀ x ∈ l₁, x.status ≠ OStatus.PENDING) ∧
      e₀.status = OStatus.PENDING ∧
      e = { e₀ with status := OStatus.PROCESSING, attempts := e₀.attempts + 1 } ∧
      l' = l₁ ++ e :: l₂ := by
  induction l generalizing e l' with
  | nil => simp [claimPending] at h
  | cons a rest ih =>
    by_cases ha : a.status = OStatus.PENDING
    · simp only [claimPending, if_pos ha, Option.some.injEq, Prod.mk.injEq] at h
      exact ⟨[], a, rest, by simp, by simp, ha, h.1.symm, by simp [← h.1, ← h.2]⟩
    · simp only [claimPending, if_neg ha] at h
      cases hr : claimPending rest with
      | none => rw [hr] at h; exact absurd h (by simp)
      | some p =>
        obtain ⟨c, rest'⟩ := p
        rw [hr] at h
        simp only [Option.some.injEq, Prod.mk.injEq] at h
        obtain ⟨l₁, e₀, l₂, hrest, hfront, hp, hc, hrest'⟩ := ih (by rw [hr, h.1])
        refine ⟨a :: l₁, e₀, l₂, by simp [hrest], ?_, hp, hc, by simp [← h.2, hrest']⟩
        intro x hx
        rcases List.mem_cons.mp hx with hxa | hxl
        · exact hxa ▸ ha
        · exact hfront x hxl

theorem claimPending_eq_none {l : List OutboxEvent} :
    claimPending l = none ↔ ∀ x ∈ l, x.status ≠ OStatus.PENDING := by
  induction l with
  | nil => simp [claimPending]
  | cons a rest ih =>
    by_cases ha : a.status = OStatus.PENDING
    · simp only [claimPending, if_pos ha]
      constructor
      · intro h; exact absurd h (by simp)
      · intro h; exact absurd ha (h a (by simp))
    · simp only [claimPending, if_neg ha]
      constructor
      · intro h x hx
        rcases List.mem_cons.mp hx with hxa | hxl
        · exact hxa ▸ ha
        · cases hr : claimPending rest with
          | none => exact (ih.mp hr) x hxl
          | some p => rw [hr] at h; cases h
      · intro h
        have : claimPending rest = none := ih.mpr (fun x hx => h x (List.mem_cons_of_mem _ hx))
        rw [this]

theorem claimPending_ids {l : List OutboxEvent} {e : OutboxEvent} {l' : List OutboxEvent}
    (h : claimPending l = some (e, l')) :
    l'.map (·.id) = l.map (·.id) := by
  obtain ⟨l₁, e₀, l₂, hl, _, _, hc, hl'⟩ := claimPending_shape h
  subst hl hl' hc
  simp

theorem claimPending_countPending {l : List OutboxEvent} {e : OutboxEvent}
    {l' : List OutboxEvent} (h : claimPending l = some (e, l')) :
    countPending l = countPending l' + 1 := by
  obtain ⟨l₁, e₀, l₂, hl, _, hp, hc, hl'⟩ := claimPending_shape h
  subst hl hl' hc
  simp [countPending, List.countP_append, List.countP_cons, hp]
  omega

theorem find?_id_append_cons {l₁ l₂ : List OutboxEvent} {x : OutboxEvent}
    (hfront : x.id ∉ l₁.map (·.id)) :
    (l₁ ++ x :: l₂).find? (fun e => e.id == x.id) = some x := by
  rw [List.find?_append]
  have h₁ : l₁.find? (fun e => e.id == x.id) = none := by
    rw [List.find?_eq_none]
    intro y hy
    simp only [beq_iff_eq]
    exact fun hxy => hfront (hxy ▸ List.mem_map_of_mem (·.id) hy)
  rw [h₁, List.find?_cons_of_pos _ (by simp)]
  rfl

theorem find?_id_middle_congr {l₁ l₂ : List OutboxEvent} {x y : OutboxEvent} {j : Nat}
    (hxy : x.id = y.id) (hne : j ≠ x.id) :
    (l₁ ++ y :: l₂).find? (fun e => e.id == j) = (l₁ ++ x :: l₂).find? (fun e => e.id == j) := by
  rw [List.find?_append, List.find?_append,
    List.find?_cons_of_neg _ (by simp [← hxy]; exact fun h => absurd h.symm hne),
    List.find?_cons_of_neg _ (by simp; exact fun h => absurd h.symm hne)]

theorem updateById_ids {j : Nat} {f : OutboxEvent → OutboxEvent}
    (hf : ∀ e, (f e).id = e.id) (l : List OutboxEvent) :
    (updateById j f l).map (·.id) = l.map (·.id) := by
  induction l with
  | nil => rfl
  | cons a rest ih =>
    by_cases ha : a.id = j
    · simp [updateById, if_pos ha, hf]
    · simp [updateById, if_neg ha, ih]

theorem find?_updateById_self {j : Nat} {f : OutboxEvent → OutboxEvent}
    (hf : ∀ e, (f e).id = e.id) (l : List OutboxEvent) :
    (updateById j f l).find? (fun e => e.id == j) =
      (l.find? (fun e => e.id == j)).map f := by
  induction l with
  | nil => rfl
  | cons a rest ih =>
    by_cases ha : a.id = j
    · rw [updateById, if_pos ha, List.find?_cons_of_pos _ (by simp [hf, ha]),
        List.find?_cons_of_pos _ (by simp [ha])]
      rfl
    · rw [updateById, if_neg ha, List.find?_cons_of_neg _ (by simp [hf, ha]),
        List.find?_cons_of_neg _ (by simp [ha]), ih]

theorem find?_updateById_ne {j j' : Nat} {f : OutboxEvent → OutboxEvent}
    (hf : ∀ e, (f e).id = e.id) (hne : j' ≠ j) (l : List OutboxEvent) :
    (updateById j f l).find? (fun e => e.id == j') =
      l.find? (fun e => e.id == j') := by
  induction l with
  | nil => rfl
  | cons a rest ih =>
    by_cases ha : a.id = j
    · rw [updateById, if_pos ha, List.find?_cons_of_neg _ (by simp [hf, ha]; exact fun h => absurd h.symm hne),
        List.find?_cons_of_neg _ (by simp [ha]; exact fun h => absurd h.symm hne)]
    · by_cases ha' : a.id = j'
      · rw [updateById, if_neg ha, List.find?_cons_of_pos _ (by simp [ha']),
          List.find?_cons_of_pos _ (by simp [ha'])]
      · rw [updateById, if_neg ha, List.find?_cons_of_neg _ (by simp [ha']),
          List.find?_cons_of_neg _ (by simp [ha']), ih]

theorem countPending_updateById_of_not_pending {j : Nat} {f : OutboxEvent → OutboxEvent}
    {l : List OutboxEvent}
    (h : ∀ e₀, l.find? (fun e => e.id == j) = some e₀ →
      e₀.status ≠ OStatus.PENDING ∧ (f e₀).status ≠ OStatus.PENDING) :
    countPending (updateById j f l) = countPending l := by
  induction l with
  | nil => rfl
  | cons a rest ih =>
    by_cases ha : a.id = j
    · have hfind : (a :: rest).find? (fun e => e.id == j) = some a :=
        List.find?_cons_of_pos _ (by simp [ha])
      obtain ⟨h₁, h₂⟩ := h a hfind
      rw [updateById, if_pos ha]
      simp [countPending, List.countP_cons, h₁, h₂]
    · have hcongr : ∀ e₀, rest.find? (fun e => e.id == j) = some e₀ →
          e₀.status ≠ OStatus.PENDING ∧ (f e₀).status ≠ OStatus.PENDING := by
        intro e₀ he₀
        exact h e₀ (by rw [List.find?_cons_of_neg _ (by simp [ha])]; exact he₀)
      rw [updateById, if_neg ha]
      have hrec := ih hcongr
      unfold countPending at hrec ⊢
      simp [List.countP_cons, hrec]

/-! ### claimNext-level lemmas -/

theorem claimNext_shape {db : OutboxDB} {evt : OutboxEvent} {db' : OutboxDB}
    (h : claimNext db = some (evt, db')) :
    ∃ l₁ e₀ l₂, db.outbox = l₁ ++ e₀ :: l₂ ∧
      (∀ x ∈ l₁, x.status ≠ OStatus.PENDING) ∧
      e₀.status = OStatus.PENDING ∧
      evt = { e₀ with status := OStatus.PROCESSING, attempts := e₀.attempts + 1 } ∧
      db'.outbox = l₁ ++ evt :: l₂ ∧ db'.log = db.log ∧ db'.nextId = db.nextId := by
  unfold claimNext at h
  cases hc : claimPending db.outbox with
  | none => rw [hc] at h; cases h
  | some p =>
    obtain ⟨e, l⟩ := p
    rw [hc] at h
    simp only [Option.some.injEq, Prod.mk.injEq] at h
    obtain ⟨l₁, e₀, l₂, h₁, h₂, h₃, h₄, h₅⟩ := claimPending_shape hc
    exact ⟨l₁, e₀, l₂, h₁, h₂, h₃, h.1 ▸ h₄, by rw [← h.2]; exact h.1 ▸ h₅, by rw [← h.2],
      by rw [← h.2]⟩

theorem claimNext_was_pending {db : OutboxDB} {evt : OutboxEvent} {db' : OutboxDB}
    (hnd : nodupIds db.outbox) (h : claimNext db = some (evt, db')) :
    statusOf db.outbox evt.id = some OStatus.PENDING := by
  obtain ⟨l₁, e₀, l₂, h₁, _, h₃, h₄, _⟩ := claimNext_shape h
  have hid : evt.id = e₀.id := by rw [h₄]
  have hfront : e₀.id ∉ l₁.map (·.id) := by
    have := h₁ ▸ hnd
    unfold nodupIds at this
    simp only [List.map_append, List.map_cons, List.nodup_append] at this
    intro hmem
    exact this.2.2 hmem (by simp)
  rw [statusOf, hid, h₁, find?_id_append_cons hfront, Option.map_some', h₃]

theorem claimNext_now_processing {db : OutboxDB} {evt : OutboxEvent} {db' : OutboxDB}
    (hnd : nodupIds db.outbox) (h : claimNext db = some (evt, db')) :
    statusOf db'.outbox evt.id = some OStatus.PROCESSING ∧
    attemptsOf db'.outbox evt.id = (attemptsOf db.outbox evt.id).map (· + 1) ∧
    errorOf db'.outbox evt.id = errorOf db.outbox evt.id := by
  obtain ⟨l₁, e₀, l₂, h₁, _, h₃, h₄, h₅, _, _⟩ := claimNext_shape h
  have hid : evt.id = e₀.id := by rw [h₄]
  have hfront : e₀.id ∉ l₁.map (·.id) := by
    have := h₁ ▸ hnd
    unfold nodupIds at this
    simp only [List.map_append, List.map_cons, List.nodup_append] at this
    intro hmem
    exact this.2.2 hmem (by simp)
  have hfront' : evt.id ∉ l₁.map (·.id) := hid ▸ hfront
  have hfind : (l₁ ++ evt :: l₂).find? (fun e => e.id == evt.id) = some evt :=
    find?_id_append_cons hfront'
  have hfind₀ : (l₁ ++ e₀ :: l₂).find? (fun e => e.id == e₀.id) = some e₀ :=
    find?_id_append_cons hfront
  refine ⟨?_, ?_, ?_⟩
  · rw [statusOf, h₅, hfind, Option.map_some', h₄]
  · rw [attemptsOf, attemptsOf, h₅, hfind, hid, h₁, hfind₀, Option.map_some',
      Option.map_some', h₄]
    simp
  · rw [errorOf, errorOf, h₅, hfind, hid, h₁, hfind₀, Option.map_some',
      Option.map_some', h₄]

theorem claimNext_ids {db : OutboxDB} {evt : OutboxEvent} {db' : OutboxDB}
    (h : claimNext db = some (evt, db')) :
    db'.outbox.map (·.id) = db.outbox.map (·.id) := by
  obtain ⟨l₁, e₀, l₂, h₁, _, _, h₄, h₅, _, _⟩ := claimNext_shape h
  rw [h₁, h₅, h₄]
  simp

theorem claimNext_countPending {db : OutboxDB} {evt : OutboxEvent} {db' : OutboxDB}
    (h : claimNext db = some (evt, db')) :
    countPending db.outbox = countPending db'.outbox + 1 := by
  unfold claimNext at h
  cases hc : claimPending db.outbox with
  | none => rw [hc] at h; cases h
  | some p =>
    obtain ⟨e, l⟩ := p
    rw [hc] at h
    simp only [Option.some.injEq, Prod.mk.injEq] at h
    obtain ⟨he, hdb⟩ := h
    subst hdb
    simpa using claimPending_countPending hc

theorem claimNext_eq_none {db : OutboxDB} :
    claimNext db = none ↔ countPending db.outbox = 0 := by
  constructor
  · intro h
    cases hc : claimPending db.outbox with
    | some p =>
      obtain ⟨e, l⟩ := p
      unfold claimNext at h
      rw [hc] at h
      cases h
    | none =>
      have hall := claimPending_eq_none.mp hc
      unfold countPending
      rw [List.countP_eq_zero]
      intro a ha
      simp only [beq_iff_eq]
      exact hall a ha
  · intro h
    have hc : claimPending db.outbox = none := by
      rw [claimPending_eq_none]
      intro x hx
      unfold countPending at h
      rw [List.countP_eq_zero] at h
      simpa using h x hx
    unfold claimNext
    rw [hc]

theorem claimNext_off_id {db : OutboxDB} {evt : OutboxEvent} {db' : OutboxDB} {j : Nat}
    (h : claimNext db = some (evt, db')) (hne : j ≠ evt.id) :
    statusOf db'.outbox j = statusOf db.outbox j ∧
    errorOf db'.outbox j = errorOf db.outbox j ∧
    attemptsOf db'.outbox j = attemptsOf db.outbox j ∧
    topicOf db'.outbox j = topicOf db.outbox j := by
  obtain ⟨l₁, e₀, l₂, h₁, _, _, h₄, h₅, _, _⟩ := claimNext_shape h
  have hid : e₀.id = evt.id := by rw [h₄]
  have hne' : j ≠ e₀.id := by rw [hid]; exact hne
  have hfind : (l₁ ++ evt :: l₂).find? (fun e => e.id == j) =
      (l₁ ++ e₀ :: l₂).find? (fun e => e.id == j) :=
    find?_id_middle_congr (x := e₀) (y := evt) hid hne'
  rw [statusOf, statusOf, errorOf, errorOf, attemptsOf, attemptsOf, topicOf, topicOf,
    h₁, h₅, hfind]
  exact ⟨rfl, rfl, rfl, rfl⟩

theorem claimNext_find?_post {db : OutboxDB} {evt : OutboxEvent} {db' : OutboxDB}
    (hnd : nodupIds db.outbox) (h : claimNext db = some (evt, db')) :
    db'.outbox.find? (fun e => e.id == evt.id) = some evt := by
  obtain ⟨l₁, e₀, l₂, h₁, _, _, h₄, h₅, _, _⟩ := claimNext_shape h
  have hid : evt.id = e₀.id := by rw [h₄]
  have hfront : e₀.id ∉ l₁.map (·.id) := by
    have := h₁ ▸ hnd
    unfold nodupIds at this
    simp only [List.map_append, List.map_cons, List.nodup_append] at this
    intro hmem
    exact this.2.2 hmem (by simp)
  rw [h₅]
  exact find?_id_append_cons (hid ▸ hfront)

/-! ### Lemmas about the dispatch of one claimed event -/

theorem handleClaimed_ids (db : OutboxDB) (handler : Handler) (evt : OutboxEvent) :
    (handleClaimed db handler evt).1.outbox.map (·.id) = db.outbox.map (·.id) := by
  unfold handleClaimed
  cases handler evt with
  | ok u => exact updateById_ids (by intro e; rfl) db.outbox
  | error msg => exact updateById_ids (by intro e; rfl) db.outbox

theorem handleClaimed_nextId (db : OutboxDB) (handler : Handler) (evt : OutboxEvent) :
    (handleClaimed db handler evt).1.nextId = db.nextId := by
  unfold handleClaimed
  cases handler evt with
  | ok u => rfl
  | error msg => rfl

theorem handleClaimed_counts (db : OutboxDB) (handler : Handler) (evt : OutboxEvent) :
    (handleClaimed db handler evt).2.1 + (handleClaimed db handler evt).2.2 = 1 := by
  unfold handleClaimed
  cases handler evt with
  | ok u => rfl
  | error msg => rfl

theorem handleClaimed_off_id {db : OutboxDB} {handler : Handler} {evt : OutboxEvent}
    {j : Nat} (hne : j ≠ evt.id) :
    statusOf (handleClaimed db handler evt).1.outbox j = statusOf db.outbox j ∧
    errorOf (handleClaimed db handler evt).1.outbox j = errorOf db.outbox j ∧
    topicOf (handleClaimed db handler evt).1.outbox j = topicOf db.outbox j := by
  unfold handleClaimed
  cases handler evt with
  | ok u =>
    exact ⟨by rw [statusOf, statusOf, markDone, find?_updateById_ne (by intro e; rfl) hne],
      by rw [errorOf, errorOf, markDone, find?_updateById_ne (by intro e; rfl) hne],
      by rw [topicOf, topicOf, markDone, find?_updateById_ne (by intro e; rfl) hne]⟩
  | error msg =>
    exact ⟨by simp only [statusOf, markFailed]; rw [find?_updateById_ne (by intro e; rfl) hne],
      by simp only [errorOf, markFailed]; rw [find?_updateById_ne (by intro e; rfl) hne],
      by simp only [topicOf, markFailed]; rw [find?_updateById_ne (by intro e; rfl) hne]⟩

theorem handleClaimed_ok {db : OutboxDB} {handler : Handler} {evt : OutboxEvent}
    (hh : handler evt = .ok ())
    (hfind : db.outbox.find? (fun e => e.id == evt.id) = some evt) :
    (handleClaimed db handler evt).1.log =
      db.log ++ [⟨evt.id, evt.topic, OStatus.DONE, none⟩] ∧
    (handleClaimed db handler evt).2 = (1, 0) ∧
    statusOf (handleClaimed db handler evt).1.outbox evt.id = some OStatus.DONE ∧
    topicOf (handleClaimed db handler evt).1.outbox evt.id = some evt.topic ∧
    errorOf (handleClaimed db handler evt).1.outbox evt.id = some evt.error := by
  unfold handleClaimed
  rw [hh]
  refine ⟨rfl, rfl, ?_, ?_, ?_⟩
  · rw [statusOf, markDone, find?_updateById_self (by intro e; rfl), hfind]; rfl
  · rw [topicOf, markDone, find?_updateById_self (by intro e; rfl), hfind]; rfl
  · rw [errorOf, markDone, find?_updateById_self (by intro e; rfl), hfind]; rfl

theorem handleClaimed_error {db : OutboxDB} {handler : Handler} {evt : OutboxEvent}
    {msg : String} (hh : handler evt = .error msg)
    (hfind : db.outbox.find? (fun e => e.id == evt.id) = some evt) :
    (handleClaimed db handler evt).1.log =
      db.log ++ [⟨evt.id, evt.topic, OStatus.FAILED, some msg⟩] ∧
    (handleClaimed db handler evt).2 = (0, 1) ∧
    statusOf (handleClaimed db handler evt).1.outbox evt.id = some OStatus.FAILED ∧
    topicOf (handleClaimed db handler evt).1.outbox evt.id = some evt.topic ∧
    errorOf (handleClaimed db handler evt).1.outbox evt.id = some (some msg) := by
  unfold handleClaimed
  rw [hh]
  refine ⟨rfl, rfl, ?_, ?_, ?_⟩
  · simp only [statusOf, markFailed]; rw [find?_updateById_self (by intro e; rfl), hfind]; rfl
  · simp only [topicOf, markFailed]; rw [find?_updateById_self (by intro e; rfl), hfind]; rfl
  · simp only [errorOf, markFailed]; rw [find?_updateById_self (by intro e; rfl), hfind]; rfl

theorem handleClaimed_countPending {db : OutboxDB} {handler : Handler} {evt : OutboxEvent}
    (hst : statusOf db.outbox evt.id = some OStatus.PROCESSING) :
    countPending (handleClaimed db handler evt).1.outbox = countPending db.outbox := by
  have hkey : ∀ (g : OutboxEvent → OutboxEvent),
      (∀ e, (g e).status ≠ OStatus.PENDING) →
      countPending (updateById evt.id g db.outbox) = countPending db.outbox := by
    intro g hg
    apply countPending_updateById_of_not_pending
    intro e₀ he₀
    refine ⟨?_, hg e₀⟩
    rw [statusOf, he₀, Option.map_some'] at hst
    intro hpend
    rw [hpend] at hst
    cases hst
  unfold handleClaimed
  cases handler evt with
  | ok u => exact hkey _ (by intro e; simp)
  | error msg => exact hkey _ (by intro e; simp)

theorem handleClaimed_log_extends (db : OutboxDB) (handler : Handler) (evt : OutboxEvent) :
    ∃ en, (handleClaimed db handler evt).1.log = db.log ++ [en] ∧ en.outboxId = evt.id := by
  unfold handleClaimed
  cases handler evt with
  | ok u => exact ⟨_, rfl, rfl⟩
  | error msg => exact ⟨_, rfl, rfl⟩

/-! ### Lemmas about the drain loop -/

theorem processLoop_ids (handler : Handler) :
    ∀ (limit : Nat) (db : OutboxDB),
      (processLoop handler limit db).1.outbox.map (·.id) = db.outbox.map (·.id) := by
  intro limit
  induction limit with
  | zero => intro db; rfl
  | succ n ih =>
    intro db
    unfold processLoop
    cases hc : claimNext db with
    | none => rfl
    | some p =>
      obtain ⟨evt, db1⟩ := p
      simp only
      rw [ih, handleClaimed_ids, claimNext_ids hc]

theorem processLoop_nextId (handler : Handler) :
    ∀ (limit : Nat) (db : OutboxDB),
      (processLoop handler limit db).1.nextId = db.nextId := by
  intro limit
  induction limit with
  | zero => intro db; rfl
  | succ n ih =>
    intro db
    unfold processLoop
    cases hc : claimNext db with
    | none => rfl
    | some p =>
      obtain ⟨evt, db1⟩ := p
      simp only
      rw [ih, handleClaimed_nextId]
      exact (claimNext_shape hc).choose_spec.choose_spec.choose_spec.2.2.2.2.2.2

theorem nodupIds_of_ids_eq {l l' : List OutboxEvent}
    (h : l'.map (·.id) = l.map (·.id)) (hnd : nodupIds l) : nodupIds l' := by
  unfold nodupIds at *
  rw [h]
  exact hnd

/-- Once an event is DONE or FAILED it is never touched again by the drain
loop: its status, error and topic are stable. -/
theorem processLoop_preserves_terminal (handler : Handler) :
    ∀ (limit : Nat) (db : OutboxDB) (j : Nat) (s : OStatus),
      nodupIds db.outbox →
      statusOf db.outbox j = some s →
      (s = OStatus.DONE ∨ s = OStatus.FAILED) →
      statusOf (processLoop handler limit db).1.outbox j = some s ∧
      errorOf (processLoop handler limit db).1.outbox j = errorOf db.outbox j ∧
      topicOf (processLoop handler limit db).1.outbox j = topicOf db.outbox j := by
  intro limit
  induction limit with
  | zero => intro db j s _ hs _; exact ⟨hs, rfl, rfl⟩
  | succ n ih =>
    intro db j s hnd hs ht
    unfold processLoop
    cases hc : claimNext db with
    | none => exact ⟨hs, rfl, rfl⟩
    | some p =>
      obtain ⟨evt, db1⟩ := p
      simp only
      have hpend := claimNext_was_pending hnd hc
      have hne : j ≠ evt.id := by
        intro hj
        rw [hj, hpend] at hs
        rcases ht with h | h <;> (rw [h] at hs; cases hs)
      have hoff₁ := claimNext_off_id hc hne
      have hoff₂ := @handleClaimed_off_id db1 handler evt j hne
      have hnd₁ : nodupIds db1.outbox := nodupIds_of_ids_eq (claimNext_ids hc) hnd
      have hnd₂ : nodupIds (handleClaimed db1 handler evt).1.outbox :=
        nodupIds_of_ids_eq (handleClaimed_ids db1 handler evt) hnd₁
      have hs₂ : statusOf (handleClaimed db1 handler evt).1.outbox j = some s := by
        rw [hoff₂.1, hoff₁.1, hs]
      obtain ⟨ha, hb, hcₜ⟩ := ih (handleClaimed db1 handler evt).1 j s hnd₂ hs₂ ht
      exact ⟨ha, by rw [hb, hoff₂.2.1, hoff₁.2.1], by rw [hcₜ, hoff₂.2.2, hoff₁.2.2.2]⟩

/-- The drain loop claims exactly `min limit (number of PENDING events)`
events; `done + failed` accounts for every one of them. -/
theorem processLoop_counts_min (handler : Handler) :
    ∀ (limit : Nat) (db : OutboxDB), nodupIds db.outbox →
      (processLoop handler limit db).2.done + (processLoop handler limit db).2.failed
        = min limit (countPending db.outbox) := by
  intro limit
  induction limit with
  | zero => intro db _; simp [processLoop]
  | succ n ih =>
    intro db hnd
    unfold processLoop
    cases hc : claimNext db with
    | none =>
      have h0 := claimNext_eq_none.mp hc
      simp [h0]
    | some p =>
      obtain ⟨evt, db1⟩ := p
      simp only
      have hnd₁ : nodupIds db1.outbox := nodupIds_of_ids_eq (claimNext_ids hc) hnd
      have hproc := (claimNext_now_processing hnd hc).1
      have hcp₂ : countPending (handleClaimed db1 handler evt).1.outbox
          = countPending db1.outbox := handleClaimed_countPending hproc
      have hnd₂ : nodupIds (handleClaimed db1 handler evt).1.outbox :=
        nodupIds_of_ids_eq (handleClaimed_ids db1 handler evt) hnd₁
      have hrec := ih (handleClaimed db1 handler evt).1 hnd₂
      have hstep := handleClaimed_counts db1 handler evt
      have hcp : countPending db.outbox = countPending db1.outbox + 1 :=
        claimNext_countPending hc
      rw [hcp₂] at hrec
      have : min (n + 1) (countPending db1.outbox + 1)
          = min n (countPending db1.outbox) + 1 := Nat.succ_min_succ _ _
      rw [hcp, this, ← hrec]
      omega

theorem step_off_id {db db1 : OutboxDB} {handler : Handler} {evt : OutboxEvent} {j : Nat}
    (hc : claimNext db = some (evt, db1)) (hne : j ≠ evt.id) :
    statusOf (handleClaimed db1 handler evt).1.outbox j = statusOf db.outbox j ∧
    errorOf (handleClaimed db1 handler evt).1.outbox j = errorOf db.outbox j ∧
    topicOf (handleClaimed db1 handler evt).1.outbox j = topicOf db.outbox j := by
  have h1 := claimNext_off_id hc hne
  have h2 := @handleClaimed_off_id db1 handler evt j hne
  exact ⟨h2.1.trans h1.1, h2.2.1.trans h1.2.1, h2.2.2.trans h1.2.2.2⟩

/-- Audit-trail accounting for a full drain call: the log grows by exactly
`done + failed` entries, one per claimed event (each claimed event was
PENDING at the start and is logged exactly once), and every new entry's
`outboxId`, `topic` and terminal `status` match the event's final state;
FAILED entries carry the event's recorded error and DONE entries carry
none. -/
theorem processLoop_log_spec (handler : Handler) :
    ∀ (limit : Nat) (db : OutboxDB), nodupIds db.outbox →
      ∃ newE : List OutboxLogEntry,
        (processLoop handler limit db).1.log = db.log ++ newE ∧
        newE.length = (processLoop handler limit db).2.done
          + (processLoop handler limit db).2.failed ∧
        (newE.map (·.outboxId)).Nodup ∧
        ∀ en ∈ newE,
          statusOf db.outbox en.outboxId = some OStatus.PENDING ∧
          (en.status = OStatus.DONE ∨ en.status = OStatus.FAILED) ∧
          statusOf (processLoop handler limit db).1.outbox en.outboxId = some en.status ∧
          topicOf (processLoop handler limit db).1.outbox en.outboxId = some en.topic ∧
          (en.status = OStatus.FAILED →
            errorOf (processLoop handler limit db).1.outbox en.outboxId = some en.error) ∧
          (en.status = OStatus.DONE → en.error = none) := by
  intro limit
  induction limit with
  | zero =>
    intro db _
    exact ⟨[], by simp [processLoop], by simp [processLoop], by simp, by simp⟩
  | succ n ih =>
    intro db hnd
    unfold processLoop
    cases hc : claimNext db with
    | none => exact ⟨[], by simp, by simp, by simp, by simp⟩
    | some p =>
      obtain ⟨evt, db1⟩ := p
      simp only
      have hnd₁ : nodupIds db1.outbox := nodupIds_of_ids_eq (claimNext_ids hc) hnd
      have hnd₂ : nodupIds (handleClaimed db1 handler evt).1.outbox :=
        nodupIds_of_ids_eq (handleClaimed_ids db1 handler evt) hnd₁
      have hfind : db1.outbox.find? (fun e => e.id == evt.id) = some evt :=
        claimNext_find?_post hnd hc
      have hlog₁ : db1.log = db.log := (claimNext_shape hc).choose_spec.choose_spec.choose_spec.2.2.2.2.2.1
      have hwaspend : statusOf db.outbox evt.id = some OStatus.PENDING :=
        claimNext_was_pending hnd hc
      obtain ⟨newE, hlogE, hlenE, hndE, hentE⟩ := ih (handleClaimed db1 handler evt).1 hnd₂
      -- facts about the head entry, by handler outcome
      cases hh : handler evt with
      | ok u =>
        cases u
        obtain ⟨hsl, hsc, hss, hst, hse⟩ := handleClaimed_ok hh hfind
        refine ⟨⟨evt.id, evt.topic, OStatus.DONE, none⟩ :: newE, ?_, ?_, ?_, ?_⟩
        · rw [hlogE, hsl, hlog₁]
          simp
        · simp only [List.length_cons, hlenE, hsc]
          omega
        · simp only [List.map_cons, List.nodup_cons]
          refine ⟨?_, hndE⟩
          intro hmem
          simp only [List.mem_map] at hmem
          obtain ⟨en', hen', hid'⟩ := hmem
          have := (hentE en' hen').1
          rw [hid', hss] at this
          cases this
        · intro en hen
          rcases List.mem_cons.mp hen with rfl | hen'
          · obtain ⟨hfa, hfb, hfc⟩ := processLoop_preserves_terminal handler n
              (handleClaimed db1 handler evt).1 evt.id OStatus.DONE hnd₂ hss (Or.inl rfl)
            refine ⟨hwaspend, Or.inl rfl, hfa, ?_, ?_, fun _ => rfl⟩
            · rw [hfc, hst]
            · intro hfalse; cases hfalse
          · have hbase := hentE en hen'
            have hne : en.outboxId ≠ evt.id := by
              intro hj
              have := hbase.1
              rw [hj, hss] at this
              cases this
            have hoff := @step_off_id db db1 handler evt en.outboxId hc hne
            exact ⟨by rw [← hoff.1]; exact hbase.1, hbase.2.1, hbase.2.2.1,
              hbase.2.2.2.1, hbase.2.2.2.2.1, hbase.2.2.2.2.2⟩
      | error msg =>
        obtain ⟨hsl, hsc, hss, hst, hse⟩ := handleClaimed_error hh hfind
        refine ⟨⟨evt.id, evt.topic, OStatus.FAILED, some msg⟩ :: newE, ?_, ?_, ?_, ?_⟩
        · rw [hlogE, hsl, hlog₁]
          simp
        · simp only [List.length_cons, hlenE, hsc]
          omega
        · simp only [List.map_cons, List.nodup_cons]
          refine ⟨?_, hndE⟩
          intro hmem
          simp only [List.mem_map] at hmem
          obtain ⟨en', hen', hid'⟩ := hmem
          have := (hentE en' hen').1
          rw [hid', hss] at this
          cases this
        · intro en hen
          rcases List.mem_cons.mp hen with rfl | hen'
          · obtain ⟨hfa, hfb, hfc⟩ := processLoop_preserves_terminal handler n
              (handleClaimed db1 handler evt).1 evt.id OStatus.FAILED hnd₂ hss (Or.inr rfl)
            refine ⟨hwaspend, Or.inr rfl, hfa, ?_, ?_, ?_⟩
            · rw [hfc, hst]
            · intro _
              rw [hfb, hse]
            · intro hfalse; cases hfalse
          · have hbase := hentE en hen'
            have hne : en.outboxId ≠ evt.id := by
              intro hj
              have := hbase.1
              rw [hj, hss] at this
              cases this
            have hoff := @step_off_id db db1 handler evt en.outboxId hc hne
            exact ⟨by rw [← hoff.1]; exact hbase.1, hbase.2.1, hbase.2.2.1,
              hbase.2.2.2.1, hbase.2.2.2.2.1, hbase.2.2.2.2.2⟩

/-- The `error` field is only ever written on the FAILED path: if a drain
call changes an event's `error`, that event ends the call FAILED. -/
theorem processLoop_error_only_failed (handler : Handler) :
    ∀ (limit : Nat) (db : OutboxDB) (j : Nat), nodupIds db.outbox →
      errorOf (processLoop handler limit db).1.outbox j ≠ errorOf db.outbox j →
      statusOf (processLoop handler limit db).1.outbox j = some OStatus.FAILED := by
  intro limit
  induction limit with
  | zero => intro db j _ hne; exact absurd rfl hne
  | succ n ih =>
    intro db j hnd hne
    unfold processLoop at hne ⊢
    cases hc : claimNext db with
    | none => rw [hc] at hne; exact absurd rfl hne
    | some p =>
      obtain ⟨evt, db1⟩ := p
      rw [hc] at hne
      simp only at hne ⊢
      have hnd₁ : nodupIds db1.outbox := nodupIds_of_ids_eq (claimNext_ids hc) hnd
      have hnd₂ : nodupIds (handleClaimed db1 handler evt).1.outbox :=
        nodupIds_of_ids_eq (handleClaimed_ids db1 handler evt) hnd₁
      by_cases hj : j = evt.id
      · subst hj
        have hfind : db1.outbox.find? (fun e => e.id == evt.id) = some evt :=
          claimNext_find?_post hnd hc
        have herr₁ : errorOf db1.outbox evt.id = errorOf db.outbox evt.id :=
          (claimNext_now_processing hnd hc).2.2
        cases hh : handler evt with
        | ok u =>
          cases u
          obtain ⟨_, _, hss, _, hse⟩ := handleClaimed_ok hh hfind
          obtain ⟨hfa, hfb, _⟩ := processLoop_preserves_terminal handler n
            (handleClaimed db1 handler evt).1 evt.id OStatus.DONE hnd₂ hss (Or.inl rfl)
          exfalso
          apply hne
          rw [hfb, hse, ← herr₁, errorOf, hfind]
          rfl
        | error msg =>
          obtain ⟨_, _, hss, _, _⟩ := handleClaimed_error hh hfind
          exact (processLoop_preserves_terminal handler n
            (handleClaimed db1 handler evt).1 evt.id OStatus.FAILED hnd₂ hss (Or.inr rfl)).1
      · have hoff := @step_off_id db db1 handler evt j hc hj
        apply ih (handleClaimed db1 handler evt).1 j hnd₂
        intro he
        exact hne (he.trans hoff.2.1)

/-! ## Claim theorems for the outbox engine -/

/-- C1: for every handler and every claimed event, a handler exception is
fully contained by `process_outbox_batch`'s `try/except` body
(`handleClaimed`, the exact loop body applied to each claimed event): on
failure the event is set to FAILED with `error` equal to the exception's
string representation and a FAILED log entry is appended, counting one
`failed`; on normal return the event is set to DONE with a DONE log entry,
counting one `done`.  `handleClaimed` and `process_outbox_batch` are total
functions into `OutboxDB × …` — a handler failure is returned as data in
the counts dictionary `{done, failed}` and never propagates. -/
theorem C1_handler_failure_contained (db : OutboxDB) (handler : Handler)
    (evt : OutboxEvent)
    (hfind : db.outbox.find? (fun e => e.id == evt.id) = some evt) :
    (∀ msg, handler evt = .error msg →
      statusOf (handleClaimed db handler evt).1.outbox evt.id = some OStatus.FAILED ∧
      errorOf (handleClaimed db handler evt).1.outbox evt.id = some (some msg) ∧
      (handleClaimed db handler evt).1.log
        = db.log ++ [⟨evt.id, evt.topic, OStatus.FAILED, some msg⟩] ∧
      (handleClaimed db handler evt).2 = (0, 1)) ∧
    (handler evt = .ok () →
      statusOf (handleClaimed db handler evt).1.outbox evt.id = some OStatus.DONE ∧
      (handleClaimed db handler evt).1.log
        = db.log ++ [⟨evt.id, evt.topic, OStatus.DONE, none⟩] ∧
      (handleClaimed db handler evt).2 = (1, 0)) ∧
    (handleClaimed db handler evt).2.1 + (handleClaimed db handler evt).2.2 = 1 := by
  refine ⟨?_, ?_, handleClaimed_counts db handler evt⟩
  · intro msg hh
    obtain ⟨hsl, hsc, hss, _, hse⟩ := handleClaimed_error hh hfind
    exact ⟨hss, hse, hsl, hsc⟩
  · intro hh
    obtain ⟨hsl, hsc, hss, _, _⟩ := handleClaimed_ok hh hfind
    exact ⟨hss, hsl, hsc⟩

/-- Concrete one-event state used to witness C1. -/
def c1DB : OutboxDB :=
  ⟨[⟨0, "notify", "p", OStatus.PROCESSING, 1, none⟩], [], 1⟩

/-- Concrete claimed event used to witness C1. -/
def c1Evt : OutboxEvent := ⟨0, "notify", "p", OStatus.PROCESSING, 1, none⟩

/-- Concrete always-failing handler used to witness C1. -/
def c1Handler : Handler := fun _ => .error "boom"

theorem C1_handler_failure_contained_witness :
    statusOf (handleClaimed c1DB c1Handler c1Evt).1.outbox 0 = some OStatus.FAILED ∧
    errorOf (handleClaimed c1DB c1Handler c1Evt).1.outbox 0 = some (some "boom") ∧
    (handleClaimed c1DB c1Handler c1Evt).1.log
      = [⟨0, "notify", OStatus.FAILED, some "boom"⟩] ∧
    (handleClaimed c1DB c1Handler c1Evt).2 = (0, 1) := by
  have h := (C1_handler_failure_contained c1DB c1Handler c1Evt (by decide)).1
    "boom" rfl
  exact ⟨h.1, h.2.1, h.2.2.1, h.2.2.2⟩

/-- C2: the claim step inside `process_outbox_batch` is the single atomic
storage operation `find_one_and_update` (one state-to-state function in
the embedding): it selects a PENDING event and, in the same indivisible
step, sets it PROCESSING and increments `attempts` by exactly 1.
Consequently a claimed event is never returned by any other claim
performed while it is not PENDING — in particular while it is PROCESSING,
i.e. before it reaches DONE or FAILED: mutual exclusion on claim. -/
theorem C2_claim_mutual_exclusion (db : OutboxDB) (evt : OutboxEvent)
    (db' : OutboxDB) (hnd : nodupIds db.outbox)
    (h : claimNext db = some (evt, db')) :
    evt.status = OStatus.PROCESSING ∧
    statusOf db.outbox evt.id = some OStatus.PENDING ∧
    statusOf db'.outbox evt.id = some OStatus.PROCESSING ∧
    attemptsOf db'.outbox evt.id = (attemptsOf db.outbox evt.id).map (· + 1) ∧
    (∀ db₂ evt₂ db₃, nodupIds db₂.outbox →
      statusOf db₂.outbox evt.id ≠ some OStatus.PENDING →
      claimNext db₂ = some (evt₂, db₃) → evt₂.id ≠ evt.id) := by
  obtain ⟨l₁, e₀, l₂, _, _, _, h₄, _, _, _⟩ := claimNext_shape h
  refine ⟨by rw [h₄], claimNext_was_pending hnd h,
    (claimNext_now_processing hnd h).1, (claimNext_now_processing hnd h).2.1, ?_⟩
  intro db₂ evt₂ db₃ hnd₂ hnp h₂ heq
  exact hnp (heq ▸ claimNext_was_pending hnd₂ h₂)

/-- Concrete two-event state used to witness C2. -/
def c2DB : OutboxDB :=
  ⟨[⟨0, "notify", "p", OStatus.PENDING, 0, none⟩,
    ⟨1, "notify", "q", OStatus.PENDING, 0, none⟩], [], 2⟩

/-- The state after the first claim on `c2DB`. -/
def c2DB' : OutboxDB :=
  ⟨[⟨0, "notify", "p", OStatus.PROCESSING, 1, none⟩,
    ⟨1, "notify", "q", OStatus.PENDING, 0, none⟩], [], 2⟩

theorem C2_claim_mutual_exclusion_witness :
    statusOf c2DB'.outbox 0 = some OStatus.PROCESSING ∧
    attemptsOf c2DB'.outbox 0 = some 1 ∧
    (1 : Nat) ≠ 0 := by
  have h := C2_claim_mutual_exclusion c2DB
    ⟨0, "notify", "p", OStatus.PROCESSING, 1, none⟩ c2DB' (by decide) (by decide)
  refine ⟨h.2.2.1, by decide, ?_⟩
  exact h.2.2.2.2 c2DB' ⟨1, "notify", "q", OStatus.PROCESSING, 1, none⟩
    ⟨[⟨0, "notify", "p", OStatus.PROCESSING, 1, none⟩,
      ⟨1, "notify", "q", OStatus.PROCESSING, 1, none⟩], [], 2⟩
    (by decide) (by decide) (by decide)

/-- Three PENDING "notify" events enqueued into an empty store. -/
def drainDemoDB : OutboxDB :=
  (enqueue_outbox (enqueue_outbox (enqueue_outbox ⟨[], [], 0⟩ "notify" "p1").1
    "notify" "p2").1 "notify" "p3").1

/-- An always-succeeding handler. -/
def okHandler : Handler := fun _ => .ok ()

/-- C4: `drain` claims exactly `min(batchLimit, #PENDING)` events.  With no
PENDING event it is a no-op returning `{done: 0, failed: 0}`; from 3
enqueued events, a first call with limit 2 and an always-succeeding
handler marks exactly 2 DONE leaving 1 PENDING, and a second call with
limit 2 finishes the last one, ending with all 3 DONE and exactly 3
matching log entries. -/
theorem C4_drain_claims_min :
    (∀ (db : OutboxDB) (handler : Handler) (limit : Nat),
        countPending db.outbox = 0 →
        process_outbox_batch db handler limit = (db, ⟨0, 0⟩)) ∧
    (∀ (db : OutboxDB) (handler : Handler) (limit : Nat), nodupIds db.outbox →
        (process_outbox_batch db handler limit).2.done
          + (process_outbox_batch db handler limit).2.failed
          = min limit (countPending db.outbox)) ∧
    ((process_outbox_batch drainDemoDB okHandler 2).2 = ⟨2, 0⟩ ∧
      countDone (process_outbox_batch drainDemoDB okHandler 2).1.outbox = 2 ∧
      countPending (process_outbox_batch drainDemoDB okHandler 2).1.outbox = 1 ∧
      (process_outbox_batch (process_outbox_batch drainDemoDB okHandler 2).1
        okHandler 2).2 = ⟨1, 0⟩ ∧
      countDone (process_outbox_batch (process_outbox_batch drainDemoDB okHandler 2).1
        okHandler 2).1.outbox = 3 ∧
      countPending (process_outbox_batch (process_outbox_batch drainDemoDB okHandler 2).1
        okHandler 2).1.outbox = 0 ∧
      (process_outbox_batch (process_outbox_batch drainDemoDB okHandler 2).1
        okHandler 2).1.log =
        [⟨0, "notify", OStatus.DONE, none⟩, ⟨1, "notify", OStatus.DONE, none⟩,
         ⟨2, "notify", OStatus.DONE, none⟩]) := by
  refine ⟨?_, ?_, by decide⟩
  · intro db handler limit h0
    cases limit with
    | zero => rfl
    | succ n =>
      unfold process_outbox_batch processLoop
      rw [claimNext_eq_none.mpr h0]
  · intro db handler limit hnd
    exact processLoop_counts_min handler limit db hnd

theorem C4_drain_claims_min_witness :
    process_outbox_batch ⟨[], [], 0⟩ okHandler 20 = (⟨[], [], 0⟩, ⟨0, 0⟩) ∧
    (process_outbox_batch drainDemoDB okHandler 2).2.done
      + (process_outbox_batch drainDemoDB okHandler 2).2.failed = min 2 3 := by
  constructor
  · exact C4_drain_claims_min.1 ⟨[], [], 0⟩ okHandler 20 (by decide)
  · exact (C4_drain_claims_min.2.1 drainDemoDB okHandler 2 (by decide)).trans (by decide)

/-- C10: accounting invariant of a drain call.  Events created by
`enqueue_outbox` start PENDING with `attempts = 0` and no `error`, and
enqueuing writes no log entry.  A drain call appends exactly
`done + failed` log entries — one per claimed event, each of which was
PENDING at the start of the call and is logged exactly once — whose
`outboxId`, `topic` and terminal `status` (DONE or FAILED) match the
event's final state; `done + failed` never exceeds the limit; and the
`error` field is only ever written on the FAILED path. -/
theorem C10_drain_accounting :
    (∀ (db : OutboxDB) (topic payload : String),
        db.nextId ∉ db.outbox.map (·.id) →
        statusOf (enqueue_outbox db topic payload).1.outbox
            (enqueue_outbox db topic payload).2 = some OStatus.PENDING ∧
        attemptsOf (enqueue_outbox db topic payload).1.outbox
            (enqueue_outbox db topic payload).2 = some 0 ∧
        errorOf (enqueue_outbox db topic payload).1.outbox
            (enqueue_outbox db topic payload).2 = some none ∧
        (enqueue_outbox db topic payload).1.log = db.log) ∧
    (∀ (db : OutboxDB) (handler : Handler) (limit : Nat), nodupIds db.outbox →
        (process_outbox_batch db handler limit).2.done
          + (process_outbox_batch db handler limit).2.failed ≤ limit ∧
        ∃ newE : List OutboxLogEntry,
          (process_outbox_batch db handler limit).1.log = db.log ++ newE ∧
          newE.length = (process_outbox_batch db handler limit).2.done
            + (process_outbox_batch db handler limit).2.failed ∧
          (newE.map (·.outboxId)).Nodup ∧
          ∀ en ∈ newE,
            statusOf db.outbox en.outboxId = some OStatus.PENDING ∧
            (en.status = OStatus.DONE ∨ en.status = OStatus.FAILED) ∧
            statusOf (process_outbox_batch db handler limit).1.outbox en.outboxId
              = some en.status ∧
            topicOf (process_outbox_batch db handler limit).1.outbox en.outboxId
              = some en.topic ∧
            (en.status = OStatus.FAILED →
              errorOf (process_outbox_batch db handler limit).1.outbox en.outboxId
                = some en.error) ∧
            (en.status = OStatus.DONE → en.error = none)) ∧
    (∀ (db : OutboxDB) (handler : Handler) (limit : Nat) (j : Nat),
        nodupIds db.outbox →
        errorOf (process_outbox_batch db handler limit).1.outbox j
          ≠ errorOf db.outbox j →
        statusOf (process_outbox_batch db handler limit).1.outbox j
          = some OStatus.FAILED) := by
  refine ⟨?_, ?_, ?_⟩
  · intro db topic payload hfresh
    have hnone : db.outbox.find? (fun e => e.id == db.nextId) = none := by
      rw [List.find?_eq_none]
      intro x hx
      simp only [beq_iff_eq]
      intro hxid
      exact hfresh (hxid ▸ List.mem_map_of_mem (·.id) hx)
    have hfind : (db.outbox
          ++ [(⟨db.nextId, topic, payload, OStatus.PENDING, 0, none⟩ : OutboxEvent)]).find?
        (fun e => e.id == db.nextId)
        = some ⟨db.nextId, topic, payload, OStatus.PENDING, 0, none⟩ := by
      rw [List.find?_append, hnone, Option.none_or,
        List.find?_cons_of_pos _ (by simp)]
    refine ⟨?_, ?_, ?_, rfl⟩
    · simp only [enqueue_outbox, statusOf]
      rw [hfind]
      rfl
    · simp only [enqueue_outbox, attemptsOf]
      rw [hfind]
      rfl
    · simp only [enqueue_outbox, errorOf]
      rw [hfind]
      rfl
  · intro db handler limit hnd
    constructor
    · have := processLoop_counts_min handler limit db hnd
      unfold process_outbox_batch
      rw [this]
      exact Nat.min_le_left _ _
    · exact processLoop_log_spec handler limit db hnd
  · intro db handler limit j hnd hchg
    exact processLoop_error_only_failed handler limit db j hnd hchg

/-- A handler that fails exactly on event id 1. -/
def c10Handler : Handler := fun evt => if evt.id = 1 then .error "boom" else .ok ()

theorem C10_drain_accounting_witness :
    (statusOf (enqueue_outbox ⟨[], [], 0⟩ "t" "p").1.outbox 0 = some OStatus.PENDING ∧
      attemptsOf (enqueue_outbox ⟨[], [], 0⟩ "t" "p").1.outbox 0 = some 0) ∧
    (process_outbox_batch drainDemoDB c10Handler 5).2.done
      + (process_outbox_batch drainDemoDB c10Handler 5).2.failed ≤ 5 ∧
    statusOf (process_outbox_batch drainDemoDB c10Handler 5).1.outbox 1
      = some OStatus.FAILED := by
  refine ⟨?_, ?_, ?_⟩
  · have h := C10_drain_accounting.1 ⟨[], [], 0⟩ "t" "p" (by decide)
    exact ⟨h.1, h.2.1⟩
  · exact (C10_drain_accounting.2.1 drainDemoDB c10Handler 5 (by decide)).1
  · exact C10_drain_accounting.2.2 drainDemoDB c10Handler 5 1 (by decide) (by decide)

/-! ## Identity store (`users` collection)

`app/routers/surveys.py::_get_or_create_user_by_qr` and
`app/routers/users.py::register_user`.  The constant `status: "active"`
field is omitted.  `new_uuid()` and `_utcnow()` are injected as the
`newSysId` and `now` parameters (spec §6: ID generator and Clock are
external collaborators). -/

/-- Python `str.strip()`: drop leading and trailing whitespace.  (Lean's
own `String.trim` is defined by well-founded recursion and does not
reduce inside the kernel, so the embedding uses an equivalent list-based
definition.) -/
def pyStrip (s : String) : String :=
  String.mk (((s.toList.dropWhile Char.isWhitespace).reverse.dropWhile
    Char.isWhitespace).reverse)

/-- Python `s.startswith("+")`. -/
def startsWithPlus (s : String) : Bool :=
  s.toList.head? == some (Char.ofNat 43)

/-- One document of the `users` collection. -/
structure User where
  sysId : String
  qrId : String
  name : String
  company : Option String
  phoneCountryCode : String
  phoneNumber : String
  phoneE164 : String
  createdAt : Nat
  updatedAt : Nat
  lastQuizSubmittedAt : Option Nat
  totalQuizzes : Nat
  totalCorrectAnswers : Nat
deriving DecidableEq, Repr

/-- `users.find_one({"qrId": qr})`. -/
def findUserByQr (us : List User) (qr : String) : Option User :=
  us.find? (fun u => u.qrId == qr)

/-- `users.find_one({"phoneE164": p})`. -/
def findUserByPhone (us : List User) (p : String) : Option User :=
  us.find? (fun u => u.phoneE164 == p)

/-- Which unique index a `DuplicateKeyError` names (`uq_qrId`,
`uq_phone_e164`, `uq_sysId` from `_ensure_indexes`). -/
inductive DupKey where
  | qrId
  | phoneE164
  | sysId
deriving DecidableEq, Repr

/-- `users.insert_one(doc)` under the three unique indexes: the insert
fails with a `DuplicateKeyError` naming the violated index, otherwise the
document is appended. -/
def insertUser (us : List User) (u : User) : Except DupKey (List User) :=
  if us.any (fun v => v.qrId == u.qrId) then .error .qrId
  else if us.any (fun v => v.phoneE164 == u.phoneE164) then .error .phoneE164
  else if us.any (fun v => v.sysId == u.sysId) then .error .sysId
  else .ok (us ++ [u])

/-- The message both routers derive from `str(e)` of a `DuplicateKeyError`
(`"qrId" in s` / `"phoneE164" in s` / fallback `"Duplicate value"`). -/
def dupMsg : DupKey → String
  | .qrId => "qrId already registered"
  | .phoneE164 => "phone already registered"
  | .sysId => "Duplicate value"

/-- `_to_e164(cc, number)` (identical helper in both routers). -/
def filterDigits (s : String) : String :=
  String.mk (s.toList.filter Char.isDigit)

/-- `_to_e164(cc, number)`. -/
def toE164 (cc number : String) : String :=
  let cc := pyStrip cc
  let cc2 := if startsWithPlus cc then cc else "+" ++ cc
  cc2 ++ filterDigits number

/-- `(company or "").strip() or None`. -/
def normCompany (company : Option String) : Option String :=
  let s := pyStrip (company.getD "")
  if s == "" then none else some s

/-- `users.update_one({"qrId": qr}, …)`: rewrite the first user with this
`qrId`. -/
def updateUserByQr (qr : String) (f : User → User) : List User → List User
  | [] => []
  | u :: rest => if u.qrId == qr then f u :: rest else u :: updateUserByQr qr f rest

/-- The `updates` dict applied in the existing-user branch of
`_get_or_create_user_by_qr` (lines 158-170): `company`/`name` are set
whenever the supplied raw value is non-empty; the phone triple is set only
when the supplied `phone_e164` is non-empty and the stored one is absent;
`updatedAt` is set iff any update happens. -/
def applyUpdates (ex : User) (now : Nat) (name : String) (company : Option String)
    (cc num e164 : String) : User :=
  let ex1 := if (company.getD "") != "" then
      { ex with company := some (pyStrip (company.getD "")) } else ex
  let ex2 := if name != "" then { ex1 with name := pyStrip name } else ex1
  let ex3 := if e164 != "" && ex.phoneE164 == "" then
      { ex2 with phoneCountryCode := cc, phoneNumber := num, phoneE164 := e164 } else ex2
  if (company.getD "") != "" || name != "" || (e164 != "" && ex.phoneE164 == "") then
    { ex3 with updatedAt := now }
  else ex3

/-- Lines 197-208 of `_get_or_create_user_by_qr`: `insert_one` of the new
user document; a `DuplicateKeyError` is converted to
`raise ValueError(msg)` with `msg` derived from `str(e)` — there is no
re-read of the collection in this branch. -/
def createUserStep (us : List User) (doc : User) :
    Except String (String × String) × List User :=
  match insertUser us doc with
  | .ok us' => (.ok (doc.sysId, doc.qrId), us')
  | .error k => (.error (dupMsg k), us)

/-- `_get_or_create_user_by_qr(db, qr_id, name, company, phone_cc,
phone_num, phone_e164)`.  The backfilling `update_one` is wrapped in
`try/except DuplicateKeyError: pass`: when the phone backfill would
violate the unique `phoneE164` index (another user already holds the
phone) the whole update is silently skipped. -/
def getOrCreateUserByQr (us : List User) (newSysId : String) (now : Nat)
    (qrId name : String) (company : Option String) (cc num e164 : String) :
    Except String (String × String) × List User :=
  match findUserByQr us qrId with
  | some ex =>
    if ex.phoneE164 != "" && ex.phoneE164 != e164 then
      (.error "phone already registered to a different user", us)
    else
      let upd := applyUpdates ex now name company cc num e164
      let wouldDup := (e164 != "" && ex.phoneE164 == "")
        && us.any (fun v => v.qrId != qrId && v.phoneE164 == e164)
      let us' := if wouldDup then us else updateUserByQr qrId (fun _ => upd) us
      (.ok (ex.sysId, qrId), us')
  | none =>
    match findUserByPhone us e164 with
    | some _ => (.error "phone already registered", us)
    | none =>
      let doc : User := ⟨newSysId, qrId, pyStrip name, normCompany company,
        cc, num, e164, now, now, none, 0, 0⟩
      createUserStep us doc

/-- `register_user(payload)` (`app/routers/users.py` lines 138-185):
pre-check `qrId` and `phoneE164` uniqueness, then insert; a
`DuplicateKeyError` from the insert is returned as an error message — no
re-read. -/
def register_user (us : List User) (newSysId : String) (now : Nat)
    (name qrIdRaw : String) (company : Option String) (cc num : String) :
    Except String (String × String) × List User :=
  let e164 := toE164 cc num
  let qr := pyStrip qrIdRaw
  if (us.find? (fun u => u.qrId == qr)).isSome then
    (.error "qrId already registered", us)
  else if (us.find? (fun u => u.phoneE164 == e164)).isSome then
    (.error "phone already registered", us)
  else
    let doc : User := ⟨newSysId, qr, pyStrip name, normCompany company,
      cc, num, e164, now, now, none, 0, 0⟩
    match insertUser us doc with
    | .ok us' => (.ok (newSysId, qr), us')
    | .error k => (.error (dupMsg k), us)

/-- No two identities hold the same non-empty E.164 phone. -/
def PhoneUnique (us : List User) : Prop :=
  ∀ u ∈ us, ∀ v ∈ us, u.phoneE164 ≠ "" → u.phoneE164 = v.phoneE164 → u = v

/-- The unique `qrId` index: no two users share a `qrId`. -/
def nodupQrIds (us : List User) : Prop :=
  (us.map (·.qrId)).Nodup

instance (us : List User) : Decidable (nodupQrIds us) := by
  unfold nodupQrIds; infer_instance

/-! ### Lemmas about the identity store -/

theorem updateUserByQr_shape {us : List User} {qr : String} {ex : User}
    (hfind : us.find? (fun u => u.qrId == qr) = some ex) (f : User → User) :
    ∃ l₁ l₂, us = l₁ ++ ex :: l₂ ∧ (∀ x ∈ l₁, x.qrId ≠ qr) ∧ ex.qrId = qr ∧
      updateUserByQr qr f us = l₁ ++ f ex :: l₂ := by
  induction us with
  | nil => simp at hfind
  | cons a rest ih =>
    by_cases ha : a.qrId = qr
    · rw [List.find?_cons_of_pos _ (by simp [ha])] at hfind
      obtain rfl : a = ex := by injection hfind
      exact ⟨[], rest, by simp, by simp, ha, by simp [updateUserByQr, ha]⟩
    · rw [List.find?_cons_of_neg _ (by simp [ha])] at hfind
      obtain ⟨l₁, l₂, h₁, h₂, h₃, h₄⟩ := ih hfind
      refine ⟨a :: l₁, l₂, by simp [h₁], ?_, h₃, by simp [updateUserByQr, ha, h₄]⟩
      intro x hx
      rcases List.mem_cons.mp hx with rfl | hxl
      · exact ha
      · exact h₂ x hxl

theorem find?_updateUserByQr {us : List User} {qr : String} {ex : User} {f : User → User}
    (hfind : us.find? (fun u => u.qrId == qr) = some ex) (hq : (f ex).qrId = qr) :
    (updateUserByQr qr f us).find? (fun u => u.qrId == qr) = some (f ex) := by
  obtain ⟨l₁, l₂, _, h₂, _, h₄⟩ := updateUserByQr_shape hfind f
  rw [h₄, List.find?_append]
  have hl₁ : l₁.find? (fun u => u.qrId == qr) = none := by
    rw [List.find?_eq_none]
    intro x hx
    simp only [beq_iff_eq]
    exact h₂ x hx
  rw [hl₁, Option.none_or, List.find?_cons_of_pos _ (by simp [hq])]

theorem applyUpdates_qrId (ex : User) (now : Nat) (name : String)
    (company : Option String) (cc num e164 : String) :
    (applyUpdates ex now name company cc num e164).qrId = ex.qrId := by
  unfold applyUpdates
  split_ifs <;> simp

theorem applyUpdates_sysId (ex : User) (now : Nat) (name : String)
    (company : Option String) (cc num e164 : String) :
    (applyUpdates ex now name company cc num e164).sysId = ex.sysId := by
  unfold applyUpdates
  split_ifs <;> simp

theorem applyUpdates_name (ex : User) (now : Nat) (name : String)
    (company : Option String) (cc num e164 : String) :
    (applyUpdates ex now name company cc num e164).name
      = (if name = "" then ex.name else pyStrip name) := by
  unfold applyUpdates
  split_ifs <;> simp_all

theorem applyUpdates_company (ex : User) (now : Nat) (name : String)
    (company : Option String) (cc num e164 : String) :
    (applyUpdates ex now name company cc num e164).company
      = (if (company.getD "") = "" then ex.company
          else some (pyStrip (company.getD ""))) := by
  unfold applyUpdates
  split_ifs <;> simp_all

theorem applyUpdates_phone_kept (ex : User) (now : Nat) (name : String)
    (company : Option String) (cc num e164 : String)
    (h : (e164 != "" && ex.phoneE164 == "") = false) :
    (applyUpdates ex now name company cc num e164).phoneE164 = ex.phoneE164 := by
  unfold applyUpdates
  split_ifs <;> simp_all

theorem applyUpdates_phone_set (ex : User) (now : Nat) (name : String)
    (company : Option String) (cc num e164 : String)
    (h : (e164 != "" && ex.phoneE164 == "") = true) :
    (applyUpdates ex now name company cc num e164).phoneE164 = e164 := by
  unfold applyUpdates
  split_ifs <;> simp_all

/-! ## Claim theorems for the identity store -/

/-- A pre-existing identity that wins the create race for `"QR-1"`. -/
def c3Winner : User :=
  ⟨"SYS-W", "QR-1", "Alice", none, "+971", "5550000", "+9715550000", 0, 0, none, 0, 0⟩

/-- The losing insert's document for the same `scanToken`. -/
def c3Doc : User :=
  ⟨"SYS-L", "QR-1", "Bobby", none, "+971", "5551111", "+9715551111", 5, 5, none, 0, 0⟩

/-- C3 counterexample: when the insert inside `_get_or_create_user_by_qr`
loses a create race on the scan token, the winner IS findable by
`scanToken`, yet the code raises `ValueError("qrId already registered")`
instead of re-reading and returning the winner's `systemId` as a success:
the result is an error, not `.ok ("SYS-W", "QR-1")`. -/
theorem C3_counterexample_no_reread :
    findUserByQr [c3Winner] "QR-1" = some c3Winner ∧
    createUserStep [c3Winner] c3Doc
      = (.error "qrId already registered", [c3Winner]) ∧
    ∀ p : String × String, (createUserStep [c3Winner] c3Doc).1 ≠ .ok p := by
  refine ⟨by decide, by decide, ?_⟩
  intro p h
  have : (createUserStep [c3Winner] c3Doc).1 = .error "qrId already registered" := by decide
  rw [this] at h
  cases h

/-- C3 amended: when the insert in the create path of
`_get_or_create_user_by_qr` (and identically in `register_user`) fails
with a uniqueness violation, the operation performs no re-read by
`scanToken` and never adopts the race winner's `systemId`: it converts the
`DuplicateKeyError` into an error whose message names the conflicting
field (`"qrId already registered"`, `"phone already registered"`, or
`"Duplicate value"`), leaving the collection unchanged. -/
theorem C3_amended_insert_race_is_error (us : List User) (doc : User) (k : DupKey)
    (h : insertUser us doc = .error k) :
    createUserStep us doc = (.error (dupMsg k), us) ∧
    ∀ p : String × String, (createUserStep us doc).1 ≠ .ok p := by
  constructor
  · unfold createUserStep
    rw [h]
  · intro p hp
    unfold createUserStep at hp
    rw [h] at hp
    cases hp

theorem C3_amended_insert_race_is_error_witness :
    createUserStep [c3Winner] c3Doc
      = (.error "qrId already registered", [c3Winner]) :=
  (C3_amended_insert_race_is_error [c3Winner] c3Doc .qrId (by decide)).1

/-- An identity with non-empty name and company already on file. -/
def c6Ex : User :=
  ⟨"S1", "QR-1", "Alice", some "Acme", "+971", "5550000", "+9715550000",
    0, 0, none, 0, 0⟩

/-- C6 counterexample: `c6Ex` has the non-empty name `"Alice"` and
company `"Acme"`; resolving the same scan token while supplying the
different non-empty values `"Bobby"`/`"Globex"` overwrites both stored
fields — the update is not backfill-only for name/organization. -/
theorem C6_counterexample_overwrites :
    c6Ex.name = "Alice" ∧ c6Ex.company = some "Acme" ∧
    (findUserByQr (getOrCreateUserByQr [c6Ex] "S2" 10 "QR-1" "Bobby" (some "Globex")
        "+971" "5550000" "+9715550000").2 "QR-1").map (·.name) = some "Bobby" ∧
    (findUserByQr (getOrCreateUserByQr [c6Ex] "S2" 10 "QR-1" "Bobby" (some "Globex")
        "+971" "5550000" "+9715550000").2 "QR-1").map (·.company)
      = some (some "Globex") := by
  decide

/-- C6 amended: in the existing-identity branch, `name` and
`company`/organization are overwritten by any supplied non-empty value
(after trimming); only the phone is backfill-only: a stored non-empty
`phoneE164` is never changed by the update, and the phone triple is
written only when the stored phone is empty.  When no other user holds
the backfilled phone the updated document is stored; when the backfill
would violate the unique phone index the whole update is skipped. -/
theorem C6_amended_name_org_overwritten (us : List User) (ex : User) (nsi : String)
    (now : Nat) (qr name : String) (company : Option String) (cc num e164 : String)
    (hfind : findUserByQr us qr = some ex)
    (hphone : ex.phoneE164 = "" ∨ ex.phoneE164 = e164) :
    (getOrCreateUserByQr us nsi now qr name company cc num e164).1
      = .ok (ex.sysId, qr) ∧
    (applyUpdates ex now name company cc num e164).name
      = (if name = "" then ex.name else pyStrip name) ∧
    (applyUpdates ex now name company cc num e164).company
      = (if (company.getD "") = "" then ex.company
          else some (pyStrip (company.getD ""))) ∧
    (ex.phoneE164 ≠ "" →
      (applyUpdates ex now name company cc num e164).phoneE164 = ex.phoneE164) ∧
    (((e164 != "" && ex.phoneE164 == "")
        && us.any (fun v => v.qrId != qr && v.phoneE164 == e164)) = false →
      findUserByQr (getOrCreateUserByQr us nsi now qr name company cc num e164).2 qr
        = some (applyUpdates ex now name company cc num e164)) ∧
    (((e164 != "" && ex.phoneE164 == "")
        && us.any (fun v => v.qrId != qr && v.phoneE164 == e164)) = true →
      (getOrCreateUserByQr us nsi now qr name company cc num e164).2 = us) := by
  have hcond : (ex.phoneE164 != "" && ex.phoneE164 != e164) = false := by
    rcases hphone with h | h <;> simp [h]
  have hq : ex.qrId = qr := by
    have := List.find?_some hfind
    simpa using this
  unfold getOrCreateUserByQr
  rw [hfind]
  simp only [hcond, Bool.false_eq_true, if_false]
  refine ⟨by trivial, applyUpdates_name .., applyUpdates_company .., ?_, ?_, ?_⟩
  · intro hne
    apply applyUpdates_phone_kept
    simp [hne]
  · intro hdup
    simp only [hdup, Bool.false_eq_true, if_false]
    exact find?_updateUserByQr hfind (by rw [applyUpdates_qrId, hq])
  · intro hdup
    simp only [hdup, if_true]

/-- An identity whose phone is still empty, used to witness C6. -/
def c6Ex2 : User :=
  ⟨"S1", "QR-1", "Alice", some "Acme", "", "", "", 0, 0, none, 0, 0⟩

theorem C6_amended_name_org_overwritten_witness :
    (getOrCreateUserByQr [c6Ex2] "S2" 10 "QR-1" "Bobby" (some "Globex")
        "+971" "5550000" "+9715550000").1 = .ok ("S1", "QR-1") ∧
    (applyUpdates c6Ex2 10 "Bobby" (some "Globex") "+971" "5550000"
        "+9715550000").name = "Bobby" ∧
    findUserByQr (getOrCreateUserByQr [c6Ex2] "S2" 10 "QR-1" "Bobby" (some "Globex")
        "+971" "5550000" "+9715550000").2 "QR-1"
      = some (applyUpdates c6Ex2 10 "Bobby" (some "Globex") "+971" "5550000"
          "+9715550000") := by
  have h := C6_amended_name_org_overwritten [c6Ex2] c6Ex2 "S2" 10 "QR-1" "Bobby"
    (some "Globex") "+971" "5550000" "+9715550000" (by decide) (Or.inl (by decide))
  exact ⟨h.1, by rw [h.2.1]; decide, h.2.2.2.2.1 (by decide)⟩

theorem not_mem_sides_of_nodupQr {l₁ l₂ : List User} {x : User}
    (h : nodupQrIds (l₁ ++ x :: l₂)) : x ∉ l₁ ∧ x ∉ l₂ := by
  unfold nodupQrIds at h
  simp only [List.map_append, List.map_cons, List.nodup_append] at h
  obtain ⟨h1, h2, h3⟩ := h
  constructor
  · intro hm
    exact h3 (List.mem_map_of_mem (·.qrId) hm) (by simp)
  · intro hm
    exact (List.nodup_cons.mp h2).1 (List.mem_map_of_mem (·.qrId) hm)

theorem qr_ne_of_sides {l₁ l₂ : List User} {x v : User}
    (h : nodupQrIds (l₁ ++ x :: l₂)) (hv : v ∈ l₁ ∨ v ∈ l₂) : v.qrId ≠ x.qrId := by
  unfold nodupQrIds at h
  simp only [List.map_append, List.map_cons, List.nodup_append] at h
  obtain ⟨h1, h2, h3⟩ := h
  rcases hv with hv | hv
  · intro he
    exact h3 (List.mem_map_of_mem (·.qrId) hv) (by simp [he])
  · intro he
    exact (List.nodup_cons.mp h2).1 (he ▸ List.mem_map_of_mem (·.qrId) hv)

/-- Replacing the distinguished element of a list by one that either keeps
its phone or takes a phone held by no other element preserves phone
uniqueness. -/
theorem phoneUnique_replace {l₁ l₂ : List User} {x y : User}
    (hpu : PhoneUnique (l₁ ++ x :: l₂))
    (hnq : nodupQrIds (l₁ ++ x :: l₂))
    (hy : y.phoneE164 = x.phoneE164 ∨
          (∀ v, (v ∈ l₁ ∨ v ∈ l₂) → v.phoneE164 ≠ y.phoneE164)) :
    PhoneUnique (l₁ ++ y :: l₂) := by
  obtain ⟨hx₁, hx₂⟩ := not_mem_sides_of_nodupQr hnq
  have hxm : x ∈ l₁ ++ x :: l₂ := by simp
  have hside : ∀ w : User, (w ∈ l₁ ∨ w ∈ l₂) → w ∈ l₁ ++ x :: l₂ := by
    intro w hw
    rcases hw with hw | hw <;> simp [hw]
  intro u hu v hv hne hpe
  have hu' : u = y ∨ (u ∈ l₁ ∨ u ∈ l₂) := by
    simp only [List.mem_append, List.mem_cons] at hu
    tauto
  have hv' : v = y ∨ (v ∈ l₁ ∨ v ∈ l₂) := by
    simp only [List.mem_append, List.mem_cons] at hv
    tauto
  rcases hu' with rfl | hu' <;> rcases hv' with rfl | hv'
  · rfl
  · rcases hy with hyx | hyv
    · exfalso
      have hxv : x = v := hpu x hxm v (hside v hv') (hyx ▸ hne) (hyx ▸ hpe)
      rcases hv' with hv' | hv'
      · exact hx₁ (hxv ▸ hv')
      · exact hx₂ (hxv ▸ hv')
    · exact absurd hpe.symm (hyv v hv')
  · rcases hy with hyx | hyv
    · exfalso
      have hux : u = x := hpu u (hside u hu') x hxm hne (hpe.trans hyx)
      rcases hu' with hu' | hu'
      · exact hx₁ (hux ▸ hu')
      · exact hx₂ (hux ▸ hu')
    · exact absurd hpe (hyv u hu')
  · exact hpu u (hside u hu') v (hside v hv') hne hpe

theorem phoneUnique_append {us : List User} {doc : User}
    (hpu : PhoneUnique us) (hnone : ∀ v ∈ us, v.phoneE164 ≠ doc.phoneE164) :
    PhoneUnique (us ++ [doc]) := by
  intro u hu v hv hne hpe
  have hu' : u ∈ us ∨ u = doc := by simpa using List.mem_append.mp hu
  have hv' : v ∈ us ∨ v = doc := by simpa using List.mem_append.mp hv
  rcases hu' with hu' | rfl
  · rcases hv' with hv' | rfl
    · exact hpu u hu' v hv' hne hpe
    · exact absurd hpe (hnone u hu')
  · rcases hv' with hv' | rfl
    · exact absurd hpe.symm (hnone v hv')
    · rfl

theorem insertUser_ok_shape {us : List User} {u : User} {us' : List User}
    (h : insertUser us u = .ok us') :
    us' = us ++ [u] ∧ us.any (fun v => v.phoneE164 == u.phoneE164) = false := by
  unfold insertUser at h
  by_cases h1 : us.any (fun v => v.qrId == u.qrId) = true
  · rw [if_pos h1] at h; cases h
  · rw [if_neg h1] at h
    by_cases h2 : us.any (fun v => v.phoneE164 == u.phoneE164) = true
    · rw [if_pos h2] at h; cases h
    · rw [if_neg h2] at h
      by_cases h3 : us.any (fun v => v.sysId == u.sysId) = true
      · rw [if_pos h3] at h; cases h
      · rw [if_neg h3] at h
        injection h with h'
        exact ⟨h'.symm, by simpa using h2⟩

theorem getOrCreate_preserves_phoneUnique (us : List User) (nsi : String) (now : Nat)
    (qr name : String) (company : Option String) (cc num e164 : String)
    (hnq : nodupQrIds us) (hpu : PhoneUnique us) :
    PhoneUnique (getOrCreateUserByQr us nsi now qr name company cc num e164).2 := by
  unfold getOrCreateUserByQr
  cases hf : findUserByQr us qr with
  | some ex =>
    simp only
    by_cases hc : (ex.phoneE164 != "" && ex.phoneE164 != e164) = true
    · rw [if_pos hc]
      exact hpu
    · rw [if_neg hc]
      simp only
      by_cases hd : ((e164 != "" && ex.phoneE164 == "")
          && us.any (fun v => v.qrId != qr && v.phoneE164 == e164)) = true
      · rw [if_pos hd]
        exact hpu
      · rw [if_neg hd]
        obtain ⟨l₁, l₂, hsh, hfront, hexqr, hupd⟩ :=
          @updateUserByQr_shape us qr ex hf
            (fun _ => applyUpdates ex now name company cc num e164)
        rw [hupd]
        have hnq' := hsh ▸ hnq
        have hpu' := hsh ▸ hpu
        apply phoneUnique_replace hpu' hnq'
        by_cases hset : (e164 != "" && ex.phoneE164 == "") = true
        · right
          have hany : us.any (fun v => v.qrId != qr && v.phoneE164 == e164) = false := by
            cases hb : us.any (fun v => v.qrId != qr && v.phoneE164 == e164) with
            | false => rfl
            | true => exact absurd (by rw [hset, hb]; rfl) hd
          intro v hv
          have hvus : v ∈ us := by
            rw [hsh]
            rcases hv with hv | hv <;> simp [hv]
          have hvqr : v.qrId ≠ qr := by
            have := qr_ne_of_sides hnq' hv
            rw [hexqr] at this
            exact this
          rw [applyUpdates_phone_set ex now name company cc num e164 hset]
          intro hveq
          have : (fun v => v.qrId != qr && v.phoneE164 == e164) v = true := by
            simp [hvqr, hveq]
          rw [List.any_eq_false] at hany
          exact hany v hvus this
        · left
          exact applyUpdates_phone_kept ex now name company cc num e164
            (Bool.eq_false_iff.mpr hset)
  | none =>
    simp only
    cases hp : findUserByPhone us e164 with
    | some w => exact hpu
    | none =>
      simp only [createUserStep]
      cases hi : insertUser us ⟨nsi, qr, pyStrip name, normCompany company,
          cc, num, e164, now, now, none, 0, 0⟩ with
      | error k => exact hpu
      | ok us' =>
        simp only
        obtain ⟨hsh, hany⟩ := insertUser_ok_shape hi
        rw [hsh]
        apply phoneUnique_append hpu
        intro v hv
        rw [List.any_eq_false] at hany
        have := hany v hv
        simpa using this

theorem register_preserves_phoneUnique (us : List User) (nsi : String) (now : Nat)
    (name qrIdRaw : String) (company : Option String) (cc num : String)
    (hpu : PhoneUnique us) :
    PhoneUnique (register_user us nsi now name qrIdRaw company cc num).2 := by
  unfold register_user
  by_cases h1 : (us.find? (fun u => u.qrId == pyStrip qrIdRaw)).isSome = true
  · rw [if_pos h1]
    exact hpu
  · rw [if_neg h1]
    by_cases h2 : (us.find? (fun u => u.phoneE164 == toE164 cc num)).isSome = true
    · rw [if_pos h2]
      exact hpu
    · rw [if_neg h2]
      simp only
      cases hi : insertUser us ⟨nsi, pyStrip qrIdRaw, pyStrip name,
          normCompany company, cc, num, toE164 cc num, now, now, none, 0, 0⟩ with
      | error k => exact hpu
      | ok us' =>
        simp only
        obtain ⟨hsh, hany⟩ := insertUser_ok_shape hi
        rw [hsh]
        apply phoneUnique_append hpu
        intro v hv
        rw [List.any_eq_false] at hany
        have := hany v hv
        simpa using this

/-- C7: phone uniqueness.  If the identity found by scan token already has
a non-empty `phoneE164` different from the supplied phone, the resolve
fails with the conflict error and changes nothing; if no identity holds
the scan token but the supplied phone is already taken, the create attempt
fails with a conflict error instead of inserting; and both
`_get_or_create_user_by_qr` and `register_user` preserve the invariant
that two identities never coexist with the same non-empty E.164 phone. -/
theorem C7_phone_uniqueness (us : List User) (nsi : String) (now : Nat)
    (qr name : String) (company : Option String) (cc num e164 : String) :
    (∀ ex, findUserByQr us qr = some ex → ex.phoneE164 ≠ "" → ex.phoneE164 ≠ e164 →
      getOrCreateUserByQr us nsi now qr name company cc num e164
        = (.error "phone already registered to a different user", us)) ∧
    (findUserByQr us qr = none → (findUserByPhone us e164).isSome = true →
      getOrCreateUserByQr us nsi now qr name company cc num e164
        = (.error "phone already registered", us)) ∧
    (nodupQrIds us → PhoneUnique us →
      PhoneUnique (getOrCreateUserByQr us nsi now qr name company cc num e164).2) ∧
    (PhoneUnique us →
      PhoneUnique (register_user us nsi now name qr company cc num).2) := by
  refine ⟨?_, ?_, ?_, ?_⟩
  · intro ex hf hne hdiff
    unfold getOrCreateUserByQr
    rw [hf]
    have hcond : (ex.phoneE164 != "" && ex.phoneE164 != e164) = true := by
      simp [hne, hdiff]
    simp [hcond]
  · intro hf hp
    unfold getOrCreateUserByQr
    rw [hf]
    obtain ⟨w, hw⟩ := Option.isSome_iff_exists.mp hp
    simp [hw]
  · intro hnq hpu
    exact getOrCreate_preserves_phoneUnique us nsi now qr name company cc num e164 hnq hpu
  · intro hpu
    exact register_preserves_phoneUnique us nsi now name qr company cc num hpu

/-- A second identity holding a distinct phone, used to witness C7. -/
def c7Other : User :=
  ⟨"S9", "QR-9", "Carol", none, "+971", "5559999", "+9715559999", 0, 0, none, 0, 0⟩

theorem C7_phone_uniqueness_witness :
    getOrCreateUserByQr [c3Winner] "S2" 10 "QR-1" "Bobby" none "+971" "5551111"
        "+9715551111"
      = (.error "phone already registered to a different user", [c3Winner]) ∧
    getOrCreateUserByQr [c3Winner] "S2" 10 "QR-2" "Bobby" none "+971" "5550000"
        "+9715550000"
      = (.error "phone already registered", [c3Winner]) ∧
    PhoneUnique (getOrCreateUserByQr [c3Winner, c7Other] "S2" 10 "QR-1" "Bobby" none
        "+971" "5550000" "+9715550000").2 := by
  refine ⟨?_, ?_, ?_⟩
  · exact (C7_phone_uniqueness [c3Winner] "S2" 10 "QR-1" "Bobby" none "+971"
      "5551111" "+9715551111").1 c3Winner (by decide) (by decide) (by decide)
  · exact (C7_phone_uniqueness [c3Winner] "S2" 10 "QR-2" "Bobby" none "+971"
      "5550000" "+9715550000").2.1 (by decide) (by decide)
  · refine (C7_phone_uniqueness [c3Winner, c7Other] "S2" 10 "QR-1" "Bobby" none "+971"
      "5550000" "+9715550000").2.2.1 (by decide) ?_
    intro u hu v hv hne hpe
    have hu' : u = c3Winner ∨ u = c7Other := by simpa using hu
    have hv' : v = c3Winner ∨ v = c7Other := by simpa using hv
    rcases hu' with rfl | rfl <;> rcases hv' with rfl | rfl
    · rfl
    · exact absurd hpe (by decide)
    · exact absurd hpe (by decide)
    · rfl

/-! ## Quiz submission guard (`app/routers/quiz.py::submit_quiz`) -/

/-- One document of the `quiz_results` collection. -/
structure QuizResult where
  sysId : String
  qrId : String
  correctAnswers : Nat
  submittedAt : Nat
deriving DecidableEq, Repr

/-- `submit_quiz(payload)`: reject when no user exists for the (stripped)
`qrId`; reject when a quiz result already exists for it; otherwise insert
the result and increment the user's aggregate counters
(`quizStats.totalQuizzes` by 1, `quizStats.totalCorrectAnswers` by
`correctAnswers`), also setting `updatedAt` and `lastQuizSubmittedAt`. -/
def submit_quiz (users : List User) (quizzes : List QuizResult) (now : Nat)
    (qrRaw : String) (correct : Nat) :
    Except String (String × Nat) × List User × List QuizResult :=
  let qr := pyStrip qrRaw
  match users.find? (fun u => u.qrId == qr) with
  | none => (.error "User not found for the provided qrId", users, quizzes)
  | some user =>
    if (quizzes.find? (fun q => q.qrId == qr)).isSome then
      (.error "Quiz already submitted for this QR", users, quizzes)
    else
      let users' := updateUserByQr qr (fun u =>
        { u with totalQuizzes := u.totalQuizzes + 1,
                 totalCorrectAnswers := u.totalCorrectAnswers + correct,
                 updatedAt := now, lastQuizSubmittedAt := some now }) users
      (.ok (qr, correct), users', quizzes ++ [⟨user.sysId, qr, correct, now⟩])

/-- C5: the two quiz guards.  With no identity for the scan token the
submission is rejected and neither collection changes.  With an identity
and no prior quiz result, the submission inserts exactly one quiz result
and bumps the identity's counters by `(1, correctAnswers)`.  Any further
submission for the same token is rejected as already-submitted with both
collections unchanged — in particular a second submission after a first
one, since the first appends a result carrying that token. -/
theorem C5_quiz_guards (users : List User) (quizzes : List QuizResult)
    (now : Nat) (qrRaw : String) (correct : Nat) :
    (users.find? (fun u => u.qrId == pyStrip qrRaw) = none →
      submit_quiz users quizzes now qrRaw correct
        = (.error "User not found for the provided qrId", users, quizzes)) ∧
    (∀ user, users.find? (fun u => u.qrId == pyStrip qrRaw) = some user →
      (quizzes.find? (fun q => q.qrId == pyStrip qrRaw)).isSome →
      submit_quiz users quizzes now qrRaw correct
        = (.error "Quiz already submitted for this QR", users, quizzes)) ∧
    (∀ user, users.find? (fun u => u.qrId == pyStrip qrRaw) = some user →
      quizzes.find? (fun q => q.qrId == pyStrip qrRaw) = none →
      (submit_quiz users quizzes now qrRaw correct).1 = .ok (pyStrip qrRaw, correct) ∧
      (submit_quiz users quizzes now qrRaw correct).2.2
        = quizzes ++ [⟨user.sysId, pyStrip qrRaw, correct, now⟩] ∧
      (submit_quiz users quizzes now qrRaw correct).2.1.find?
          (fun u => u.qrId == pyStrip qrRaw)
        = some { user with
            totalQuizzes := user.totalQuizzes + 1,
            totalCorrectAnswers := user.totalCorrectAnswers + correct,
            updatedAt := now,
            lastQuizSubmittedAt := some now } ∧
      ((submit_quiz users quizzes now qrRaw correct).2.2.find?
          (fun q => q.qrId == pyStrip qrRaw)).isSome) := by
  refine ⟨?_, ?_, ?_⟩
  · intro hn
    unfold submit_quiz
    dsimp only
    rw [hn]
  · intro user hu hq
    unfold submit_quiz
    dsimp only
    rw [hu]
    simp only [hq, if_true]
  · intro user hu hq
    unfold submit_quiz
    dsimp only
    rw [hu]
    simp only [hq, Option.isSome_none, Bool.false_eq_true, if_false]
    refine ⟨by trivial, by trivial, ?_, ?_⟩
    · exact find?_updateUserByQr hu (by
        have := List.find?_some hu
        simpa using this)
    · rw [List.find?_append, hq, Option.none_or,
        List.find?_cons_of_pos _ (by simp)]
      rfl

/-- The identity used to witness C5. -/
def c5User : User :=
  ⟨"S1", "QR-1", "Dana", none, "+971", "5550000", "+9715550000", 0, 0, none, 0, 0⟩

theorem C5_quiz_guards_witness :
    submit_quiz [] [] 5 "QR-1" 5
      = (.error "User not found for the provided qrId", [], []) ∧
    (submit_quiz [c5User] [] 5 "QR-1" 5).2.2 = [⟨"S1", "QR-1", 5, 5⟩] ∧
    ((submit_quiz [c5User] [] 5 "QR-1" 5).2.1.find? (fun u => u.qrId == "QR-1")).map
        (fun u => (u.totalQuizzes, u.totalCorrectAnswers)) = some (1, 5) ∧
    submit_quiz (submit_quiz [c5User] [] 5 "QR-1" 5).2.1
        (submit_quiz [c5User] [] 5 "QR-1" 5).2.2 9 "QR-1" 3
      = (.error "Quiz already submitted for this QR",
          (submit_quiz [c5User] [] 5 "QR-1" 5).2.1,
          (submit_quiz [c5User] [] 5 "QR-1" 5).2.2) := by
  refine ⟨?_, ?_, ?_, ?_⟩
  · exact (C5_quiz_guards [] [] 5 "QR-1" 5).1 (by decide)
  · exact ((C5_quiz_guards [c5User] [] 5 "QR-1" 5).2.2 c5User (by decide)
      (by decide)).2.1.trans (by decide)
  · have h := ((C5_quiz_guards [c5User] [] 5 "QR-1" 5).2.2 c5User (by decide)
      (by decide)).2.2.1
    rw [show pyStrip "QR-1" = "QR-1" by decide] at h
    rw [h]
    decide
  · have hfirst := (C5_quiz_guards [c5User] [] 5 "QR-1" 5).2.2 c5User (by decide)
      (by decide)
    have hu2 : (submit_quiz [c5User] [] 5 "QR-1" 5).2.1.find?
        (fun u => u.qrId == pyStrip "QR-1")
        = some { c5User with
            totalQuizzes := 1,
            totalCorrectAnswers := 5,
            updatedAt := 5,
            lastQuizSubmittedAt := some 5 } := by
      have := hfirst.2.2.1
      exact this.trans (by decide)
    exact (C5_quiz_guards (submit_quiz [c5User] [] 5 "QR-1" 5).2.1
      (submit_quiz [c5User] [] 5 "QR-1" 5).2.2 9 "QR-1" 3).2.1 _ hu2 hfirst.2.2.2

/-! ## Survey submission (`app/routers/surveys.py::submit_survey`) -/

/-- One document of the `surveys` collection.  Answer values are kept as
opaque strings. -/
structure Survey where
  sysId : String
  qrId : String
  name : String
  company : Option String
  phoneCountryCode : String
  phoneNumber : String
  phoneE164 : String
  interest : String
  raffleEligible : Bool
  raffleDate : Option Nat
  thoughtsOnStc : Option String
  answers : List (String × String)
  submittedAt : Nat
deriving DecidableEq, Repr

/-- `_today_utc_midnight()`: today's date at 00:00:00 UTC, as seconds
since the epoch (86400 seconds per UTC day). -/
def dayStartUTC (t : Nat) : Nat := t - t % 86400

/-- `submit_survey(payload)`: reject when a survey already exists for the
E.164 phone (checked before resolving any identity); otherwise
resolve-or-create the identity, then insert one survey document with
`raffleEligible = (interest == "None")` and, when eligible, `raffleDate`
pinned to today's UTC midnight. -/
def submit_survey (users : List User) (surveys : List Survey) (newSysId : String)
    (now : Nat) (qrRaw name : String) (company : Option String)
    (cc num interest : String) (thoughts : Option String)
    (answers : List (String × String)) :
    Except String (String × String) × List User × List Survey :=
  let qr := pyStrip qrRaw
  let e164 := toE164 cc num
  if (surveys.find? (fun s => s.phoneE164 == e164)).isSome then
    (.error "A survey has already been submitted for this phone number", users, surveys)
  else
    match getOrCreateUserByQr users newSysId now qr name company cc num e164 with
    | (.error m, users') => (.error m, users', surveys)
    | (.ok sq, users') =>
      let raffleEligible := interest == "None"
      let doc : Survey := ⟨sq.1, qr, pyStrip name, normCompany company, cc, num, e164,
        interest, raffleEligible,
        if raffleEligible then some (dayStartUTC now) else none,
        thoughts, answers, now⟩
      (.ok (sq.1, qr), users', surveys ++ [doc])

/-- At most one survey per E.164 phone. -/
def AtMostOnePhoneSurvey (ss : List Survey) : Prop :=
  ∀ s ∈ ss, ∀ s' ∈ ss, s.phoneE164 = s'.phoneE164 → s = s'

theorem surveyUnique_append {ss : List Survey} {doc : Survey}
    (h : AtMostOnePhoneSurvey ss) (hnone : ∀ s ∈ ss, s.phoneE164 ≠ doc.phoneE164) :
    AtMostOnePhoneSurvey (ss ++ [doc]) := by
  intro u hu v hv hpe
  have hu' : u ∈ ss ∨ u = doc := by simpa using List.mem_append.mp hu
  have hv' : v ∈ ss ∨ v = doc := by simpa using List.mem_append.mp hv
  rcases hu' with hu' | rfl
  · rcases hv' with hv' | rfl
    · exact h u hu' v hv' hpe
    · exact absurd hpe (hnone u hu')
  · rcases hv' with hv' | rfl
    · exact absurd hpe.symm (hnone v hv')
    · rfl

/-- C8: on every successful survey submission the stored document has
`raffleEligible` true iff the interest category equals `"None"`; when
eligible the stored `raffleDate` is the start (00:00:00) of the current
UTC day — the same value for any two submission instants within the same
UTC day — and when not eligible `raffleDate` is `none`. -/
theorem C8_raffle_eligibility (users : List User) (surveys : List Survey)
    (nsi : String) (now : Nat) (qrRaw name : String) (company : Option String)
    (cc num interest : String) (thoughts : Option String)
    (answers : List (String × String)) (sq : String × String) (users' : List User)
    (hno : (surveys.find? (fun s => s.phoneE164 == toE164 cc num)).isSome = false)
    (hres : getOrCreateUserByQr users nsi now (pyStrip qrRaw) name company cc num
        (toE164 cc num) = (.ok sq, users')) :
    submit_survey users surveys nsi now qrRaw name company cc num interest
        thoughts answers
      = (.ok (sq.1, pyStrip qrRaw), users', surveys
          ++ [⟨sq.1, pyStrip qrRaw, pyStrip name, normCompany company, cc, num,
            toE164 cc num, interest, interest == "None",
            if interest == "None" then some (dayStartUTC now) else none,
            thoughts, answers, now⟩]) ∧
    ((interest == "None") = true ↔ interest = "None") ∧
    (interest = "None" →
      (if interest == "None" then some (dayStartUTC now) else none)
        = some (dayStartUTC now)) ∧
    (interest ≠ "None" →
      (if interest == "None" then some (dayStartUTC now) else none) = none) ∧
    dayStartUTC now % 86400 = 0 ∧
    dayStartUTC now ≤ now ∧ now < dayStartUTC now + 86400 ∧
    (∀ t₁ t₂ : Nat, t₁ / 86400 = t₂ / 86400 → dayStartUTC t₁ = dayStartUTC t₂) := by
  refine ⟨?_, by simp, ?_, ?_, ?_, ?_, ?_, ?_⟩
  · unfold submit_survey
    dsimp only
    rw [hno]
    simp only [Bool.false_eq_true, if_false]
    rw [hres]
  · intro h
    simp [h]
  · intro h
    simp [h]
  · unfold dayStartUTC
    omega
  · unfold dayStartUTC
    omega
  · unfold dayStartUTC
    omega
  · intro t₁ t₂ h
    unfold dayStartUTC
    omega

theorem C8_raffle_eligibility_witness :
    (submit_survey [] [] "S1" 90000 "QR-1" "Dana" none "+971" "5550000" "None"
        none []).2.2
      = [⟨"S1", "QR-1", "Dana", none, "+971", "5550000", "+9715550000", "None",
          true, some 86400, none, [], 90000⟩] ∧
    dayStartUTC 90000 = 86400 ∧ dayStartUTC 90000 = dayStartUTC 172799 := by
  have h := C8_raffle_eligibility [] [] "S1" 90000 "QR-1" "Dana" none "+971"
    "5550000" "None" none [] ("S1", "QR-1")
    [⟨"S1", "QR-1", "Dana", none, "+971", "5550000", "+9715550000", 90000, 90000,
      none, 0, 0⟩] (by decide) (by decide)
  refine ⟨?_, by decide, h.2.2.2.2.2.2.2 90000 172799 (by decide)⟩
  rw [h.1]
  decide

/-- C9: at most one survey submission per E.164 phone.  When a survey
already exists for the submitted phone the request is rejected before any
identity is resolved or created, with both collections returned unchanged;
when none exists, a resolve failure inserts nothing and a successful
resolve inserts exactly one survey document (carrying that phone); the
at-most-one-survey-per-phone invariant is preserved by every call. -/
theorem C9_one_survey_per_phone (users : List User) (surveys : List Survey)
    (nsi : String) (now : Nat) (qrRaw name : String) (company : Option String)
    (cc num interest : String) (thoughts : Option String)
    (answers : List (String × String)) :
    ((surveys.find? (fun s => s.phoneE164 == toE164 cc num)).isSome = true →
      submit_survey users surveys nsi now qrRaw name company cc num interest
          thoughts answers
        = (.error "A survey has already been submitted for this phone number",
            users, surveys)) ∧
    (∀ m users', (surveys.find? (fun s => s.phoneE164 == toE164 cc num)).isSome = false →
      getOrCreateUserByQr users nsi now (pyStrip qrRaw) name company cc num
          (toE164 cc num) = (.error m, users') →
      submit_survey users surveys nsi now qrRaw name company cc num interest
          thoughts answers
        = (.error m, users', surveys)) ∧
    (∀ sq users', (surveys.find? (fun s => s.phoneE164 == toE164 cc num)).isSome = false →
      getOrCreateUserByQr users nsi now (pyStrip qrRaw) name company cc num
          (toE164 cc num) = (.ok sq, users') →
      ∃ doc : Survey, doc.phoneE164 = toE164 cc num ∧
        (submit_survey users surveys nsi now qrRaw name company cc num interest
            thoughts answers).2.2 = surveys ++ [doc]) ∧
    (AtMostOnePhoneSurvey surveys →
      AtMostOnePhoneSurvey (submit_survey users surveys nsi now qrRaw name company
        cc num interest thoughts answers).2.2) := by
  refine ⟨?_, ?_, ?_, ?_⟩
  · intro hex
    unfold submit_survey
    dsimp only
    rw [hex]
    simp
  · intro m users' hno hres
    unfold submit_survey
    dsimp only
    rw [hno]
    simp only [Bool.false_eq_true, if_false]
    rw [hres]
  · intro sq users' hno hres
    refine ⟨⟨sq.1, pyStrip qrRaw, pyStrip name, normCompany company, cc, num,
      toE164 cc num, interest, interest == "None",
      if interest == "None" then some (dayStartUTC now) else none,
      thoughts, answers, now⟩, rfl, ?_⟩
    unfold submit_survey
    dsimp only
    rw [hno]
    simp only [Bool.false_eq_true, if_false]
    rw [hres]
  · intro hinv
    unfold submit_survey
    dsimp only
    by_cases hex : (surveys.find? (fun s => s.phoneE164 == toE164 cc num)).isSome = true
    · rw [hex]
      simpa using hinv
    · rw [Bool.eq_false_iff.mpr hex]
      simp only [Bool.false_eq_true, if_false]
      cases hres : getOrCreateUserByQr users nsi now (pyStrip qrRaw) name company
          cc num (toE164 cc num) with
      | mk r users' =>
        cases r with
        | error m => exact hinv
        | ok sq =>
          simp only
          apply surveyUnique_append hinv
          intro s hs
          have hnone : surveys.find? (fun s => s.phoneE164 == toE164 cc num) = none := by
            cases hf : surveys.find? (fun s => s.phoneE164 == toE164 cc num) with
            | none => rfl
            | some w => rw [hf] at hex; exact absurd rfl hex
          rw [List.find?_eq_none] at hnone
          have := hnone s hs
          simpa using this

/-- An already-stored survey for the phone `+9715550000`, witnessing C9. -/
def c9Survey : Survey :=
  ⟨"S0", "QR-0", "Erin", none, "+971", "5550000", "+9715550000", "None",
    true, some 86400, none, [], 86500⟩

theorem C9_one_survey_per_phone_witness :
    submit_survey [] [c9Survey] "S1" 90000 "QR-1" "Dana" none "+971" "5550000"
        "None" none []
      = (.error "A survey has already been submitted for this phone number",
          [], [c9Survey]) ∧
    AtMostOnePhoneSurvey (submit_survey [] [] "S1" 90000 "QR-1" "Dana" none "+971"
      "5550000" "None" none []).2.2 := by
  constructor
  · exact (C9_one_survey_per_phone [] [c9Survey] "S1" 90000 "QR-1" "Dana" none
      "+971" "5550000" "None" none []).1 (by decide)
  · refine (C9_one_survey_per_phone [] [] "S1" 90000 "QR-1" "Dana" none
      "+971" "5550000" "None" none []).2.2.2 ?_
    intro s hs
    simp at hs

end STC
